import Mathlib

/-!
# Verification of the go-job execution coordination layer

A shallow embedding of the go-job repository's core data model and
operations (config merging, retry/backoff computation, the idempotency
tracker, the concurrency limiter, the task-commander pipeline, envelope
parameter sanitization, the cron manager's update sequence, and the
metadata parser's preprocessor and raw-config decoding), together with
theorems settling the specification claims about them.

Conventions of the embedding:
* Go `time.Duration` (an `int64` of nanoseconds) is modelled as `Int`,
  with 64-bit wraparound applied where the source multiplies.
* Go `string`-typed enums (`BackoffStrategy`, `DeduplicationPolicy`)
  stay strings, as in the source.
* Go maps that the source distinguishes from `nil` are `Option` of an
  association list.
* Errors are an inductive `JobError`; the source's error wrapping is
  collapsed to the distinguishing constructor.
-/

set_option autoImplicit false

namespace GoJob

/-- A parameter value (`any` in Go) as stored in `ExecutionMessage.Parameters`
and `Config.Metadata`. -/
inductive ParamVal where
  | vStr (s : String)
  | vInt (n : Int)
  | vBool (b : Bool)
  deriving DecidableEq, Repr

/-- Association-list lookup (first binding wins), modelling a Go map read. -/
def alookup {α : Type} (k : String) : List (String × α) → Option α
  | [] => none
  | (k', v) :: rest => if k' = k then some v else alookup k rest

/-- `BackoffConfig` from the source: strategy is a string enum
(`"none" | "fixed" | "exponential"`), intervals are durations. -/
structure BackoffConfig where
  strategy : String := ""
  interval : Int := 0
  maxInterval : Int := 0
  jitter : Bool := false
  deriving DecidableEq, Repr

/-- `Config` from the source (the current variant carrying `MaxRuns`,
`ExitOnError`, `MaxConcurrency`, `Deadline` and `Backoff`). The Go zero
`time.Time` for `Deadline` is modelled as `0`. -/
structure Config where
  schedule : String := ""
  retries : Int := 0
  timeout : Int := 0
  deadline : Int := 0
  noTimeout : Bool := false
  debug : Bool := false
  runOnce : Bool := false
  maxRuns : Int := 0
  exitOnError : Bool := false
  maxConcurrency : Int := 0
  scriptType : String := ""
  transaction : Bool := false
  metadata : Option (List (String × ParamVal)) := none
  env : Option (List (String × String)) := none
  backoff : BackoffConfig := {}
  deriving DecidableEq, Repr

/-- `mergeBackoffDefaults` from the source: overlay non-zero override
fields onto the base backoff config; `Jitter` is only promoted to true. -/
def mergeBackoffDefaults (base override : BackoffConfig) : BackoffConfig :=
  let r0 := base
  let r1 := if override.strategy ≠ "" then { r0 with strategy := override.strategy } else r0
  let r2 := if override.interval ≠ 0 then { r1 with interval := override.interval } else r1
  let r3 := if override.maxInterval ≠ 0 then { r2 with maxInterval := override.maxInterval } else r2
  if override.jitter then { r3 with jitter := true } else r3

/-- `mergeConfigDefaults` from the source: overlay `override` onto `base`,
replacing scalars only when non-zero, promoting booleans only when the
override is true, replacing maps when non-nil, and merging the backoff
sub-struct field-wise (first in-line, then again via
`mergeBackoffDefaults` when any override backoff field is non-zero,
exactly as the source does). -/
def mergeConfigDefaults (base override : Config) : Config :=
  let r0 := base
  let r1 := if override.schedule ≠ "" then { r0 with schedule := override.schedule } else r0
  let r2 := if override.retries ≠ 0 then { r1 with retries := override.retries } else r1
  let r3 := if override.timeout ≠ 0 then { r2 with timeout := override.timeout } else r2
  let r4 := if override.deadline ≠ 0 then { r3 with deadline := override.deadline } else r3
  let r5 := if override.noTimeout then { r4 with noTimeout := true } else r4
  let r6 := if override.debug then { r5 with debug := true } else r5
  let r7 := if override.runOnce then { r6 with runOnce := true } else r6
  let r8 := if override.maxRuns ≠ 0 then { r7 with maxRuns := override.maxRuns } else r7
  let r9 := if override.exitOnError then { r8 with exitOnError := true } else r8
  let r10 := if override.maxConcurrency ≠ 0 then { r9 with maxConcurrency := override.maxConcurrency } else r9
  let r11 := if override.scriptType ≠ "" then { r10 with scriptType := override.scriptType } else r10
  let r12 := if override.transaction then { r11 with transaction := true } else r11
  let r13 := if override.backoff.strategy ≠ "" then
      { r12 with backoff := { r12.backoff with strategy := override.backoff.strategy } } else r12
  let r14 := if override.backoff.interval ≠ 0 then
      { r13 with backoff := { r13.backoff with interval := override.backoff.interval } } else r13
  let r15 := if override.backoff.maxInterval ≠ 0 then
      { r14 with backoff := { r14.backoff with maxInterval := override.backoff.maxInterval } } else r14
  let r16 := if override.backoff.jitter then
      { r15 with backoff := { r15.backoff with jitter := true } } else r15
  let r17 := if override.metadata.isSome then { r16 with metadata := override.metadata } else r16
  let r18 := if override.env.isSome then { r17 with env := override.env } else r17
  if override.backoff.strategy ≠ "" ∨ override.backoff.interval ≠ 0 ∨
      override.backoff.maxInterval ≠ 0 ∨ override.backoff.jitter then
    { r18 with backoff := mergeBackoffDefaults base.backoff override.backoff }
  else r18

/-! ## Retry backoff computation (`computeBackoffDelay`, `applyJitter`) -/

/-- `100 * time.Millisecond` in nanoseconds. -/
def defaultBackoffInterval : Int := 100 * 1000000

/-- `5 * time.Second` in nanoseconds. -/
def defaultBackoffMaxInterval : Int := 5 * 1000000000

/-- Two's-complement wraparound of Go `int64` arithmetic. -/
def int64Wrap (x : Int) : Int := (x + 2 ^ 63) % 2 ^ 64 - 2 ^ 63

/-- The doubling loop of the exponential branch of `computeBackoffDelay`:
`for i := 1; i < attempt; i++ { delay *= 2; if delay > maxInterval
{ delay = maxInterval; break } }`, with `fuel = attempt - 1` iterations
remaining and 64-bit wraparound on the multiplication. -/
def expLoop (maxInterval : Int) : Nat → Int → Int
  | 0, delay => delay
  | fuel + 1, delay =>
    let d := int64Wrap (2 * delay)
    if d > maxInterval then maxInterval else expLoop maxInterval fuel d

/-- `applyJitter` from the source. The jittered branch draws a random
float and perturbs the delay by up to ±50 %; that float computation is
abstracted as the function `jf` supplied by the caller of the model
(all theorems below fix `jitter = false`, where `jf` is unused). -/
def applyJitter (jf : Int → Int) (delay : Int) (jitter : Bool) : Int :=
  if ¬jitter ∨ delay ≤ 0 then delay else jf delay

/-- The effective interval after the source's defaulting
(`if interval <= 0 { interval = defaultBackoffInterval }`). -/
def effInterval (cfg : BackoffConfig) : Int :=
  if cfg.interval ≤ 0 then defaultBackoffInterval else cfg.interval

/-- The effective maximum interval after the source's defaulting. -/
def effMaxInterval (cfg : BackoffConfig) : Int :=
  if cfg.maxInterval ≤ 0 then defaultBackoffMaxInterval else cfg.maxInterval

/-- `computeBackoffDelay` from the source: non-positive attempts yield 0;
`Interval`/`MaxInterval` default to 100 ms / 5 s when non-positive;
`"fixed"` returns the interval, `"exponential"` runs the doubling loop
(capped only after a doubling), anything else returns 0. -/
def computeBackoffDelay (jf : Int → Int) (attempt : Int) (cfg : BackoffConfig) : Int :=
  if attempt ≤ 0 then 0
  else
    if cfg.strategy = "fixed" then applyJitter jf (effInterval cfg) cfg.jitter
    else if cfg.strategy = "exponential" then
      applyJitter jf (expLoop (effMaxInterval cfg) (attempt - 1).toNat (effInterval cfg)) cfg.jitter
    else 0

example : computeBackoffDelay id 1 { strategy := "none" } = 0 := by decide
example : computeBackoffDelay id 1
    { strategy := "fixed", interval := 100 * 1000000 } = 100 * 1000000 := by decide
example : computeBackoffDelay id 1
    { strategy := "exponential", interval := 50 * 1000000, maxInterval := 150 * 1000000 } =
      50 * 1000000 := by decide
example : computeBackoffDelay id 2
    { strategy := "exponential", interval := 50 * 1000000, maxInterval := 150 * 1000000 } =
      100 * 1000000 := by decide
example : computeBackoffDelay id 3
    { strategy := "exponential", interval := 50 * 1000000, maxInterval := 150 * 1000000 } =
      150 * 1000000 := by decide

/-! ## Errors, results and the execution message -/

/-- Errors of the pipeline, collapsing the source's wrapped `go-errors`
values to their distinguishing constructor. `engineFailure n` stands for
an arbitrary error returned by the `n`-th engine invocation;
`ctxDone e` tags an error returned by `ctx.Err()`. -/
inductive JobError where
  | nilMessage
  | taskMissing
  | invalidMessage
  | noEngine (taskID : String)
  | idempotentDrop
  | concurrencyLimit
  | quotaExceeded
  | ctxDone (which : Nat)
  | engineFailure (n : Nat)
  | other (s : String)
  deriving DecidableEq, Repr

/-- The fields of `Result` that `Result.Validate` inspects (`Size` and
`Duration` must be non-negative), plus its identifying strings. -/
structure ResultData where
  status : String := ""
  message : String := ""
  outputURL : String := ""
  size : Int := 0
  duration : Int := 0
  deriving DecidableEq, Repr

/-- `Result.Validate` from the source: rejects negative `Size` or
`Duration`. `true` means valid. -/
def resultValid (r : ResultData) : Bool :=
  decide (0 ≤ r.size) && decide (0 ≤ r.duration)

/-- `MaxIdempotencyKeyLength` from the source. -/
def maxIdempotencyKeyLength : Nat := 256

/-- `ExecutionMessage` from the source (current variant). `Parameters`
is `Option` of an association list so that the Go `nil` map is
distinguished from an empty one; `DedupPolicy` is a string as in Go.
The `OutputCallback` field is not modelled (no claim mentions it). -/
structure ExecutionMessage where
  jobID : String := ""
  scriptPath : String := ""
  config : Config := {}
  parameters : Option (List (String × ParamVal)) := none
  idempotencyKey : String := ""
  dedupPolicy : String := ""
  result : Option ResultData := none
  deriving DecidableEq, Repr

/-- `isValidDedupPolicy` from the source: empty and the four named
policies are legal. -/
def isValidDedupPolicy (policy : String) : Bool :=
  policy = "" || policy = "ignore" || policy = "drop" || policy = "merge" || policy = "replace"

/-- `ExecutionMessage.Validate` from the source: non-empty `JobID` and
`ScriptPath`, idempotency key within 256 bytes, a legal dedup policy,
and an embedded `Result` (when present) passing its own validation.
`true` means valid. -/
def messageValid (msg : ExecutionMessage) : Bool :=
  decide (msg.jobID ≠ "") && decide (msg.scriptPath ≠ "") &&
    decide (msg.idempotencyKey.utf8ByteSize ≤ maxIdempotencyKeyLength) &&
    isValidDedupPolicy msg.dedupPolicy &&
    (match msg.result with
     | none => true
     | some r => resultValid r)

/-! ## Idempotency tracker -/

/-- The decision returned by `IdempotencyTracker.BeforeExecute`. -/
inductive DedupDecision where
  | proceed
  | drop
  | merge
  deriving DecidableEq, Repr

/-- The tracker state: `IdempotencyKey → {lastErr}`. An entry's value is
the stored last error (possibly `none` = Go `nil`). -/
abbrev TrackerState := List (String × Option JobError)

/-- Insert or replace a tracker entry. -/
def trackerSet (key : String) (v : Option JobError) : TrackerState → TrackerState
  | [] => [(key, v)]
  | (k, v') :: rest => if k = key then (key, v) :: rest else (k, v') :: trackerSet key v rest

/-- `IdempotencyTracker.BeforeExecute` from the source: empty key or
empty/`ignore` policy proceed without touching the map; an absent key
creates an entry and proceeds; a present key drops/merges/resets
according to the policy, surfacing the stored error for drop and merge. -/
def beforeExecute (t : TrackerState) (key policy : String) :
    TrackerState × DedupDecision × Option JobError :=
  if key = "" ∨ policy = "" ∨ policy = "ignore" then (t, .proceed, none)
  else
    match alookup key t with
    | none => (trackerSet key none t, .proceed, none)
    | some lastErr =>
      if policy = "drop" then (t, .drop, lastErr)
      else if policy = "merge" then (t, .merge, lastErr)
      else if policy = "replace" then (trackerSet key none t, .proceed, none)
      else (t, .proceed, none)

/-- `IdempotencyTracker.AfterExecute` from the source: writes the final
execution error into the entry (creating it when absent), except for an
empty key or empty/`ignore` policy. -/
def afterExecute (t : TrackerState) (key policy : String) (execErr : Option JobError) :
    TrackerState :=
  if key = "" ∨ policy = "" ∨ policy = "ignore" then t
  else trackerSet key execErr t

/-! ## Concurrency limiter -/

/-- A per-key semaphore: the channel's capacity (fixed at creation) and
the number of occupied slots. -/
structure Semaphore where
  cap : Nat
  occupied : Nat
  deriving DecidableEq, Repr

/-- Limiter state: compound key → semaphore channel. -/
abbrev LimiterState := List (String × Semaphore)

/-- Replace the semaphore stored under `key`. -/
def semSet (key : String) (s : Semaphore) : LimiterState → LimiterState
  | [] => [(key, s)]
  | (k, s') :: rest => if k = key then (key, s) :: rest else (k, s') :: semSet key s rest

/-- The outcome of `ConcurrencyLimiter.Acquire`: a no-op release (nil
message or non-positive limit), a release closure bound to the key whose
slot it frees, or the `ErrConcurrencyLimit` failure. -/
inductive AcquireOutcome where
  | noop
  | acquired (key : String)
  | limitReached
  deriving DecidableEq, Repr

/-- The compound key: `JobID`, suffixed with `|<scope>` when a scope
extractor is configured and yields a non-empty scope. -/
def limiterKey (scopeEx : Option (ExecutionMessage → String)) (msg : ExecutionMessage) : String :=
  match scopeEx with
  | none => msg.jobID
  | some f => if f msg = "" then msg.jobID else msg.jobID ++ "|" ++ f msg

/-- `ConcurrencyLimiter.Acquire` from the source: nil message or
`limit ≤ 0` return a no-op release; otherwise the channel for the key is
created (capacity `limit`) if absent, and a non-blocking send either
occupies a slot (returning a release bound to the key) or fails
immediately with the limit error. -/
def limiterAcquire (st : LimiterState) (msg? : Option ExecutionMessage) (limit : Int)
    (scopeEx : Option (ExecutionMessage → String)) : LimiterState × AcquireOutcome :=
  match msg? with
  | none => (st, .noop)
  | some msg =>
    if limit ≤ 0 then (st, .noop)
    else
      let key := limiterKey scopeEx msg
      let (st1, sem) :=
        match alookup key st with
        | none => (semSet key ⟨limit.toNat, 0⟩ st, (⟨limit.toNat, 0⟩ : Semaphore))
        | some sem => (st, sem)
      if sem.occupied < sem.cap then
        (semSet key ⟨sem.cap, sem.occupied + 1⟩ st1, .acquired key)
      else (st1, .limitReached)

/-- Running a release closure: `func() { <-ch }` frees one slot of the
key it was acquired for; the no-op and failure outcomes release nothing. -/
def limiterRelease (st : LimiterState) : AcquireOutcome → LimiterState
  | .acquired key =>
    match alookup key st with
    | some sem => semSet key ⟨sem.cap, sem.occupied - 1⟩ st
    | none => st
  | _ => st

/-! ## Tasks and execution-message completion -/

/-- The `baseTask` fields the pipeline reads: identifier, script path,
parsed config, cached script content, and whether an engine is bound
(`j.engine == nil` is the only engine property `buildExecutionMessage`
inspects). -/
structure TaskData where
  id : String := ""
  scriptPath : String := ""
  config : Config := {}
  scriptContent : String := ""
  hasEngine : Bool := true
  deriving Repr

/-- Modelled from the spec: `ExecutionMessage.normalize` is called by
`baseTask.buildExecutionMessage` but its body is not among the provided
sources. Per the spec ("Parameters is always a non-nil map after
normalization") and the README ("`parameters` is normalized to an empty
map, and `dedup_policy` defaults to `ignore` when unspecified"), it
replaces a nil parameter map by an empty one and an empty dedup policy
by `"ignore"`, mutating the message in place. -/
def normalizeMessage (msg : ExecutionMessage) : ExecutionMessage :=
  let msg1 := if msg.parameters.isNone then { msg with parameters := some [] } else msg
  if msg1.dedupPolicy = "" then { msg1 with dedupPolicy := "ignore" } else msg1

/-- The field updates `baseTask.buildExecutionMessage` applies to a
non-nil message: fill empty `JobID`/`ScriptPath` from the task, replace
`Config` by the merge of the task config with the message overrides,
make `Parameters` non-nil and attach the cached script under
`"script"` when absent, then normalize. -/
def buildUpdates (t : TaskData) (msg : ExecutionMessage) : ExecutionMessage :=
  let m1 := if msg.jobID = "" then { msg with jobID := t.id } else msg
  let m2 := if m1.scriptPath = "" then { m1 with scriptPath := t.scriptPath } else m1
  let m3 := { m2 with config := mergeConfigDefaults t.config m2.config }
  let params :=
    match m3.parameters with
    | none => []
    | some ps => ps
  let m4 :=
    if (alookup "script" params).isNone then
      { m3 with parameters := some (params ++ [("script", ParamVal.vStr t.scriptContent)]) }
    else { m3 with parameters := some params }
  normalizeMessage m4

/-- `baseTask.buildExecutionMessage` on a non-nil message: errors when
the task has no engine, otherwise applies `buildUpdates` in place. -/
def buildExecutionMessage (t : TaskData) (msg : ExecutionMessage) :
    Except JobError ExecutionMessage :=
  if ¬t.hasEngine then .error (.noEngine t.id)
  else .ok (buildUpdates t msg)

/-- A heap of message objects; a Go `*ExecutionMessage` is an index. -/
abbrev MsgHeap := List ExecutionMessage

/-- `baseTask.buildExecutionMessage` with Go pointer semantics: a nil
pointer allocates a fresh empty message; a valid pointer is mutated in
place and returned unchanged. The result is the updated heap, the
returned pointer, or the engine error. -/
def buildExecutionMessageH (t : TaskData) (heap : MsgHeap) (p? : Option Nat) :
    Except JobError (MsgHeap × Nat) :=
  if ¬t.hasEngine then .error (.noEngine t.id)
  else
    match p? with
    | none => .ok (heap ++ [buildUpdates t {}], heap.length)
    | some p =>
      match heap[p]? with
      | none => .error (.other "dangling pointer")
      | some msg => .ok (heap.set p (buildUpdates t msg), p)

/-- `CompleteExecutionMessage` for a task that implements the
`messageComposer` interface (as `baseTask` does): it delegates directly
to the task's `buildExecutionMessage`. -/
def completeExecutionMessageH (t : TaskData) (heap : MsgHeap) (p? : Option Nat) :
    Except JobError (MsgHeap × Nat) :=
  buildExecutionMessageH t heap p?

/-! ## The task-commander pipeline -/

/-- The mutable state a `TaskCommander.Execute` call touches: the
idempotency tracker, the concurrency limiter, and (for counting) the
number of engine invocations performed so far. -/
structure CommanderState where
  tracker : TrackerState := []
  limiter : LimiterState := []
  execCount : Nat := 0
  deriving Repr

/-- The retry loop of `TaskCommander.Execute`:
`for attempt := 0; ; attempt++ { err = task.Execute(...); if err == nil
return nil; if attempt >= maxRetries return err; sleep(backoff) }`.
`eRes a` is the result of the attempt with local index `a`; `cancel a`
is the context state observed if the sleep after attempt `a` actually
waits (`sleepWithContext` returns nil immediately for a non-positive
delay without consulting the context). `remaining` maintains
`(maxRetries - attempt).toNat`. Returns the loop's result and the number
of engine invocations performed. -/
def retryLoopAux (eRes : Nat → Option JobError) (cancel : Nat → Option JobError)
    (cfg : BackoffConfig) (jf : Int → Int) : Nat → Nat → Option JobError × Nat
  | remaining, a =>
    match eRes a with
    | none => (none, a + 1)
    | some e =>
      match remaining with
      | 0 => (some e, a + 1)
      | r + 1 =>
        let d := computeBackoffDelay jf (a + 1) cfg
        match (if d ≤ 0 then none else cancel a) with
        | some ce => (some ce, a + 1)
        | none => retryLoopAux eRes cancel cfg jf r (a + 1)

/-- The retry loop started at attempt 0 with `maxRetries` from the
merged config (a Go `int`; negative values allow no retries, since
`attempt >= maxRetries` is then true at once). -/
def retryLoop (eRes : Nat → Option JobError) (cancel : Nat → Option JobError)
    (maxRetries : Int) (cfg : BackoffConfig) (jf : Int → Int) : Option JobError × Nat :=
  retryLoopAux eRes cancel cfg jf maxRetries.toNat 0

/-- `defaultQuotaChecker` from the source: a quota function that always
passes. -/
def defaultQuotaChecker : ExecutionMessage → Option JobError := fun _ => none

/-- `TaskCommander.acquireConcurrency` from the source: nil task/limiter
or non-positive merged `MaxConcurrency` yield a no-op release without
touching the limiter; otherwise the limiter acquires under the
commander's scope extractor. -/
def acquireConcurrency (st : LimiterState) (scopeEx : Option (ExecutionMessage → String))
    (msg : ExecutionMessage) : LimiterState × AcquireOutcome :=
  if msg.config.maxConcurrency ≤ 0 then (st, .noop)
  else limiterAcquire st (some msg) msg.config.maxConcurrency scopeEx

/-- Stages 5–8 of the pipeline, reached when the idempotency pre-check
said proceed (with `tracker1` the tracker state it left): the quota
check, concurrency acquisition, the retry loop, and the deferred
idempotency post-hook and slot release. -/
def commanderProceed (quota : ExecutionMessage → Option JobError)
    (scopeEx : Option (ExecutionMessage → String)) (eRes : Nat → Option JobError)
    (cancel : Nat → Option JobError) (jf : Int → Int) (finalMsg : ExecutionMessage)
    (st : CommanderState) (tracker1 : TrackerState) : Option JobError × CommanderState :=
  match quota finalMsg with
  | some e => (some e, { st with tracker := tracker1 })
  | none =>
    match acquireConcurrency st.limiter scopeEx finalMsg with
    | (limiter1, .limitReached) =>
      (some .concurrencyLimit, { st with tracker := tracker1, limiter := limiter1 })
    | (limiter1, acq) =>
      let (res, cnt) :=
        retryLoop (fun k => eRes (st.execCount + k)) cancel
          finalMsg.config.retries finalMsg.config.backoff jf
      let lastEngineErr := eRes (st.execCount + cnt - 1)
      let tracker2 :=
        afterExecute tracker1 finalMsg.idempotencyKey finalMsg.dedupPolicy lastEngineErr
      (res, { tracker := tracker2, limiter := limiterRelease limiter1 acq,
              execCount := st.execCount + cnt })

/-- Stages 3–4 of the pipeline on the completed message: validation and
the idempotency pre-check (drop → sentinel, merge → prior error). -/
def commanderRun (quota : ExecutionMessage → Option JobError)
    (scopeEx : Option (ExecutionMessage → String)) (eRes : Nat → Option JobError)
    (cancel : Nat → Option JobError) (jf : Int → Int) (finalMsg : ExecutionMessage)
    (st : CommanderState) : Option JobError × CommanderState :=
  if ¬messageValid finalMsg then (some .invalidMessage, st)
  else
    match beforeExecute st.tracker finalMsg.idempotencyKey finalMsg.dedupPolicy with
    | (tracker1, .drop, _) => (some .idempotentDrop, { st with tracker := tracker1 })
    | (tracker1, .merge, prevErr) => (prevErr, { st with tracker := tracker1 })
    | (tracker1, .proceed, _) =>
      commanderProceed quota scopeEx eRes cancel jf finalMsg st tracker1

/-- `TaskCommander.Execute` from the source, as a state transformer:
nil-message and missing-task guards, message completion via the task's
composer (`buildExecutionMessage`), then validation, the idempotency
pre-check, quota, concurrency, the retry loop and the deferred hooks
(`commanderRun`/`commanderProceed`). `eRes k` is the outcome of the
`k`-th engine invocation overall (continuing `st.execCount`), `cancel`
the per-sleep context oracle, `jf` the jitter abstraction, and `quota`
the commander's quota checker. Returns Execute's error result and the
final state. -/
def commanderExecute (task? : Option TaskData) (quota : ExecutionMessage → Option JobError)
    (scopeEx : Option (ExecutionMessage → String)) (eRes : Nat → Option JobError)
    (cancel : Nat → Option JobError) (jf : Int → Int) (msg? : Option ExecutionMessage)
    (st : CommanderState) : Option JobError × CommanderState :=
  match msg? with
  | none => (some .nilMessage, st)
  | some msg =>
    match task? with
    | none => (some .taskMissing, st)
    | some task =>
      match buildExecutionMessage task msg with
      | .error e => (some e, st)
      | .ok finalMsg => commanderRun quota scopeEx eRes cancel jf finalMsg st

/-! ## Envelope parameter sanitization (store model)

Go maps are reference values; to talk about mutation through shared
references, `Params` maps live in a store (a heap of map objects) and a
map-typed value is an index into the store. -/

/-- A JSON-style parameter value as stored in an envelope `Params` map;
`pRef` is a reference to another map object in the store. -/
inductive PVal where
  | pStr (s : String)
  | pInt (n : Int)
  | pBool (b : Bool)
  | pRef (r : Nat)
  deriving DecidableEq, Repr

/-- One map object. -/
abbrev PMap := List (String × PVal)

/-- The heap of map objects; a Go map value is an index into it. -/
abbrev ParamStore := List PMap

/-- A Go `EnvelopeSanitizer` as a store transformer: it receives the
(possibly nil) map reference produced by `copyParams` and may read or
write the store through any references it can reach. -/
abbrev Sanitizer := ParamStore → Option Nat → ParamStore × Option Nat

/-- `copyParams` from the source: a nil or empty map yields Go `nil`;
otherwise a fresh map object is allocated holding the same top-level
entries (values, including references to nested maps, are shared — the
copy is shallow). -/
def copyParams (store : ParamStore) (p? : Option Nat) : ParamStore × Option Nat :=
  match p? with
  | none => (store, none)
  | some r =>
    match store[r]? with
    | none => (store, none)
    | some pm => if pm = [] then (store, none) else (store ++ [pm], some store.length)

/-- `sanitizeParams` from the source: with no sanitizer, just the
defensive copy; otherwise the sanitizer is applied to the copy. -/
def sanitizeParams (store : ParamStore) (p? : Option Nat) (san? : Option Sanitizer) :
    ParamStore × Option Nat :=
  match san? with
  | none => copyParams store p?
  | some san =>
    let (store1, c?) := copyParams store p?
    san store1 c?

/-- The envelope fields its validation inspects, with `Params` as a
store reference. -/
structure Envelope where
  impersonatorID : String := ""
  isImpersonated : Bool := false
  hasActor : Bool := false
  params : Option Nat := none
  idempotencyKey : String := ""
  deriving DecidableEq, Repr

/-- `Envelope.Validate` from the source: idempotency key within 256
bytes and no impersonation without an impersonator ID. -/
def envelopeValid (env : Envelope) : Bool :=
  decide (env.idempotencyKey.utf8ByteSize ≤ maxIdempotencyKeyLength) &&
    !(env.hasActor && env.isImpersonated && env.impersonatorID == "")

/-- The store effect of `EncodeEnvelope`: validation failure returns
before any copying; otherwise `env.clone()` makes one defensive copy of
`Params` (immediately superseded) and `sanitizeParams` makes the copy
handed to the sanitizer. JSON marshalling and the size-ceiling check
mutate no map object and are not part of the store effect. -/
def encodeEnvelopeStore (store : ParamStore) (env : Envelope) (san? : Option Sanitizer) :
    ParamStore × Except Unit (Option Nat) :=
  if ¬envelopeValid env then (store, .error ())
  else
    let (store1, _cloneRef) := copyParams store env.params
    let (store2, sanRef) := sanitizeParams store1 env.params san?
    (store2, .ok sanRef)

/-- A sanitizer a caller could write in Go: read the nested map stored
under `"m"` of the map it was handed and overwrite that nested map's
`"x"` entry. It mutates only state reachable from its argument. -/
def nestedMutatingSanitizer : Sanitizer := fun store c? =>
  match c? with
  | none => (store, none)
  | some c =>
    match store[c]? with
    | none => (store, some c)
    | some pm =>
      match alookup "m" pm with
      | some (.pRef r) => (store.set r [("x", .pInt 2)], some c)
      | _ => (store, some c)

/-! ## Cron manager: the Update sequence -/

/-- Which of the schedule's subscriptions the external scheduler holds
active at an instant during `CronManager.Update`. -/
structure CronSubs where
  oldActive : Bool
  newActive : Bool
  deriving DecidableEq, Repr

/-- The externally visible steps `Update` performs after its guards. -/
inductive CronOp where
  | addHandler (ok : Bool)
  | storeEntry
  | unsubscribeOld
  deriving DecidableEq, Repr

/-- The sequence of steps `CronManager.Update` runs for a registered
schedule, in source order: validation/resolution failures return before
any scheduler call; `scheduler.AddHandler` registers the new
subscription; on its failure Update returns (the stored entry and the
old subscription untouched); on success the map entry is replaced and
only then is the old subscription unsubscribed. -/
def cronUpdateProgram (resolveOk addOk : Bool) : List CronOp :=
  if ¬resolveOk then []
  else if addOk then [.addHandler true, .storeEntry, .unsubscribeOld]
  else [.addHandler false]

/-- Effect of each step on the subscription state. -/
def applyCronOp (s : CronSubs) : CronOp → CronSubs
  | .addHandler ok => if ok then { s with newActive := true } else s
  | .storeEntry => s
  | .unsubscribeOld => { s with oldActive := false }

/-- Every subscription state observable during `Update`, starting from
a registered schedule (old subscription active). -/
def cronUpdateStates (resolveOk addOk : Bool) : List CronSubs :=
  (cronUpdateProgram resolveOk addOk).scanl applyCronOp ⟨true, false⟩

/-! ## Metadata parser: the schedule-quoting preprocessor -/

/-- Go regexp `\s` (RE2 whitespace class): tab, newline, vertical tab,
form feed, carriage return, space. -/
def isSpaceGo (c : Char) : Bool :=
  c = ' ' || c = '\t' || c = '\x0a' || c = '\x0b' || c = '\x0c' || c = '\x0d'

/-- Go regexp `\w` (ASCII word character). -/
def isWordCharGo (c : Char) : Bool :=
  ('a' ≤ c && c ≤ 'z') || ('A' ≤ c && c ≤ 'Z') || ('0' ≤ c && c ≤ '9') || c = '_'

/-- `cs` begins with the characters `pre`. -/
def leadsWith : List Char → List Char → Bool
  | [], _ => true
  | _ :: _, [] => false
  | c :: pre, d :: cs => c = d && leadsWith pre cs

/-- The directives of the preprocessor regex's alternation:
`@(?:(?:every(?:\s+\S+)?)|yearly|annually|monthly|weekly|daily|midnight|hourly|reboot)\b`. -/
def scheduleDirectives : List String :=
  ["every", "yearly", "annually", "monthly", "weekly", "daily", "midnight", "hourly", "reboot"]

/-- Whether the text after `@` matches the directive alternation
followed by `\b`. (For `every`, the optional `\s+\S+` argument and the
word boundary backtrack within the match without changing whether the
line matches or what the captures span, so the residual condition is
the same for every directive: the directive word followed by
end-of-line or a non-word character.) -/
def directiveMatch (cs : List Char) : Bool :=
  scheduleDirectives.any fun w =>
    leadsWith w.data cs &&
      (match cs.drop w.data.length with
       | [] => true
       | c :: _ => ¬isWordCharGo c)

/-- The `(schedule:\s*)(@…\b.*)$` part of the preprocessor regex,
matched after the optional dash prefix has yielded group `g1` and the
residual line `rest`: group 2 is the literal `schedule:` plus
whitespace, group 3 everything from `@` to end of line. -/
def matchScheduleRest (g1 rest : List Char) : Option (List Char × List Char × List Char) :=
  if leadsWith "schedule:".data rest then
    let rest2 := rest.drop 9
    let sp2 := rest2.takeWhile isSpaceGo
    match rest2.drop sp2.length with
    | '@' :: rest4 =>
      if directiveMatch rest4 then some (g1, "schedule:".data ++ sp2, '@' :: rest4)
      else none
    | _ => none
  else none

/-- The per-line match of the preprocessor regex
`^((?:-+\s*)?)(schedule:\s*)(@…\b.*)$`: group 1 is an optional run of
dashes plus trailing whitespace (present only when the line starts with
a dash), then the schedule part. -/
def matchScheduleParts (cs : List Char) : Option (List Char × List Char × List Char) :=
  let dashes := cs.takeWhile (· = '-')
  let g1sp := (cs.drop dashes.length).takeWhile isSpaceGo
  if dashes = [] then matchScheduleRest [] cs
  else matchScheduleRest (dashes ++ g1sp) (cs.drop (dashes.length + g1sp.length))

/-- Rewrite one line as `ReplaceAll` with `${1}${2}"${3}"` does: quote
the schedule value of a matching line, leave other lines unchanged. -/
def scheduleQuotesLine (line : List Char) : List Char :=
  match matchScheduleParts line with
  | some (g1, g2, g3) => g1 ++ g2 ++ '"' :: (g3 ++ ['"'])
  | none => line

/-- Split on newline characters (the line structure `(?m)` anchors to). -/
def splitOnNL : List Char → List (List Char)
  | [] => [[]]
  | c :: rest =>
    if c = '\x0a' then [] :: splitOnNL rest
    else
      match splitOnNL rest with
      | [] => [[c]]
      | l :: ls => (c :: l) :: ls

/-- Join lines back with newlines. -/
def joinNL : List (List Char) → List Char
  | [] => []
  | [l] => l
  | l :: ls => l ++ '\x0a' :: joinNL ls

/-- `ScheduleQuotesProcessor.Process` from the source: the anchored
`(?m)` pattern matches within single lines (it contains no newline and
`.` does not cross lines), so `ReplaceAll` rewrites each line
independently. -/
def scheduleQuotesProcess (data : String) : String :=
  String.mk (joinNL ((splitOnNL data.data).map scheduleQuotesLine))

/-- `yamlMetadataParser.applyProcesors` from the source: the default
parser's processor list is exactly `[&ScheduleQuotesProcessor{}]`, and
that processor never errors, so the stage is the quoting rewrite. It is
applied to the whole input before `Parse` splits it into lines and
scans for a header. -/
def applyProcesors (data : String) : String := scheduleQuotesProcess data

/-! ## Metadata parser: raw-config decoding -/

/-- A decoded YAML value as far as the `rawConfig` schema needs:
scalars and one level of string-keyed mapping (the `env` and `metadata`
fields; nested collections inside `metadata` are not needed by any
claim and decode as a shape error in this model). -/
inductive YamlVal where
  | yStr (s : String)
  | yInt (n : Int)
  | yBool (b : Bool)
  | yMap (m : List (String × YamlVal))
  deriving Repr

/-- The YAML tags of `rawConfig`'s fields (the parser's recognized
schema in the current source variant). -/
def rawConfigKeys : List String :=
  ["schedule", "retries", "timeout", "deadline", "no_timeout", "debug", "run_once",
   "max_runs", "exit_on_error", "env", "script_type", "transaction", "metadata"]

/-- `rawConfig` from the source: the fixed struct `yaml.Unmarshal`
decodes the header into (`Timeout` and `Deadline` still raw strings). -/
structure RawConfig where
  schedule : String := ""
  retries : Int := 0
  timeout : String := ""
  deadline : String := ""
  noTimeout : Bool := false
  debug : Bool := false
  runOnce : Bool := false
  maxRuns : Int := 0
  exitOnError : Bool := false
  env : Option (List (String × String)) := none
  scriptType : String := ""
  transaction : Bool := false
  metadata : Option (List (String × ParamVal)) := none
  deriving Repr

def yamlGetStr (m : List (String × YamlVal)) (k : String) : Except Unit String :=
  match alookup k m with
  | none => .ok ""
  | some (.yStr s) => .ok s
  | some _ => .error ()

def yamlGetInt (m : List (String × YamlVal)) (k : String) : Except Unit Int :=
  match alookup k m with
  | none => .ok 0
  | some (.yInt n) => .ok n
  | some _ => .error ()

def yamlGetBool (m : List (String × YamlVal)) (k : String) : Except Unit Bool :=
  match alookup k m with
  | none => .ok false
  | some (.yBool b) => .ok b
  | some _ => .error ()

def yamlScalarToParam : YamlVal → Except Unit ParamVal
  | .yStr s => .ok (.vStr s)
  | .yInt n => .ok (.vInt n)
  | .yBool b => .ok (.vBool b)
  | .yMap _ => .error ()

def yamlStrEntries : List (String × YamlVal) → Except Unit (List (String × String))
  | [] => .ok []
  | (k, .yStr s) :: rest => (yamlStrEntries rest).map (fun tl => (k, s) :: tl)
  | _ :: _ => .error ()

def yamlParamEntries : List (String × YamlVal) → Except Unit (List (String × ParamVal))
  | [] => .ok []
  | (k, v) :: rest => do
    let pv ← yamlScalarToParam v
    let tl ← yamlParamEntries rest
    .ok ((k, pv) :: tl)

def yamlGetStrMap (m : List (String × YamlVal)) (k : String) :
    Except Unit (Option (List (String × String))) :=
  match alookup k m with
  | none => .ok none
  | some (.yMap entries) => (yamlStrEntries entries).map some
  | some _ => .error ()

def yamlGetAnyMap (m : List (String × YamlVal)) (k : String) :
    Except Unit (Option (List (String × ParamVal))) :=
  match alookup k m with
  | none => .ok none
  | some (.yMap entries) => (yamlParamEntries entries).map some
  | some _ => .error ()

/-- `yaml.Unmarshal(data, &raw)` at the boundary: gopkg.in/yaml.v2
decodes a mapping into the fixed `rawConfig` struct by field tag — each
tagged field takes the value found under its key (a wrong shape is a
decode error), and keys named by no tag are silently ignored (the
library's non-strict behavior; the source does not use
`UnmarshalStrict`). -/
def rawConfigDecode (m : List (String × YamlVal)) : Except Unit RawConfig := do
  let schedule ← yamlGetStr m "schedule"
  let retries ← yamlGetInt m "retries"
  let timeout ← yamlGetStr m "timeout"
  let deadline ← yamlGetStr m "deadline"
  let noTimeout ← yamlGetBool m "no_timeout"
  let debug ← yamlGetBool m "debug"
  let runOnce ← yamlGetBool m "run_once"
  let maxRuns ← yamlGetInt m "max_runs"
  let exitOnError ← yamlGetBool m "exit_on_error"
  let env ← yamlGetStrMap m "env"
  let scriptType ← yamlGetStr m "script_type"
  let transaction ← yamlGetBool m "transaction"
  let metadata ← yamlGetAnyMap m "metadata"
  .ok { schedule, retries, timeout, deadline, noTimeout, debug, runOnce, maxRuns,
        exitOnError, env, scriptType, transaction, metadata }

/-- `DefaultTimeout` (one minute, in nanoseconds). -/
def defaultTimeoutNs : Int := 60 * 1000000000

/-- `DefaultSchedule`. -/
def defaultSchedule : String := "* * * * *"

/-- `strconv.Atoi` after `strings.ReplaceAll(s, "_", "")`: an optional
sign followed by at least one ASCII digit. -/
def atoiCleaned (s : String) : Option Int :=
  let cleaned := (s.data.filter (· ≠ '_'))
  let (neg, digits) :=
    match cleaned with
    | '-' :: rest => (true, rest)
    | '+' :: rest => (false, rest)
    | rest => (false, rest)
  if digits = [] ∨ ¬(digits.all Char.isDigit) then none
  else
    let n := digits.foldl (fun acc c => acc * 10 + (c.toNat - '0'.toNat)) 0
    some (if neg then -(n : Int) else (n : Int))

/-- `parseRawConfig` from the source (current variant, carrying
`deadline`, `max_runs` and `exit_on_error`): decode the mapping into
`rawConfig`, build a `Config` with the default timeout, then interpret
`timeout` (a duration string via `time.ParseDuration`, else
underscore-separated digits as whole seconds, else an accumulated
error; only a positive result replaces the default) and `deadline`
(RFC3339 via `time.Parse`, else an accumulated error), and default the
schedule. `durParse` and `rfcParse` model the standard library's
`time.ParseDuration` and `time.Parse(time.RFC3339, ·)` at the boundary
(no claim depends on their internals). -/
def parseRawConfig (durParse rfcParse : String → Option Int)
    (m : List (String × YamlVal)) : Except Unit (Config × List String) := do
  let raw ← rawConfigDecode m
  let cfg : Config :=
    { schedule := raw.schedule, retries := raw.retries, noTimeout := raw.noTimeout,
      debug := raw.debug, runOnce := raw.runOnce, maxRuns := raw.maxRuns,
      exitOnError := raw.exitOnError, scriptType := raw.scriptType,
      transaction := raw.transaction, metadata := raw.metadata, env := raw.env,
      timeout := defaultTimeoutNs }
  let (d, errs1) :=
    if raw.timeout ≠ "" then
      match durParse raw.timeout with
      | some d => (d, ([] : List String))
      | none =>
        match atoiCleaned raw.timeout with
        | some seconds => (seconds * 1000000000, [])
        | none => (0, ["invalid timeout duration: " ++ raw.timeout])
    else (0, [])
  let cfg := if raw.timeout ≠ "" ∧ d > 0 then { cfg with timeout := d } else cfg
  let cfg := if cfg.schedule = "" then { cfg with schedule := defaultSchedule } else cfg
  let (cfg, errs2) :=
    if raw.deadline ≠ "" then
      match rfcParse raw.deadline with
      | some t => ({ cfg with deadline := t }, ([] : List String))
      | none => (cfg, ["invalid deadline: " ++ raw.deadline])
    else (cfg, [])
  .ok (cfg, errs1 ++ errs2)

/-- Projection used to state facts about the parsed config's metadata. -/
def cfgMetadataOf (r : Except Unit (Config × List String)) :
    Option (Option (List (String × ParamVal))) :=
  match r with
  | .ok (c, _) => some c.metadata
  | .error _ => none

/-! ## Iterated acquisition (for the concurrency-cap claim) -/

/-- `n` successive `Acquire` calls for the same message and limit,
collecting the outcomes. -/
def acquireN (msg : ExecutionMessage) (limit : Int) :
    Nat → LimiterState → LimiterState × List AcquireOutcome
  | 0, st => (st, [])
  | n + 1, st =>
    let (st1, outs) := acquireN msg limit n st
    let (st2, o) := limiterAcquire st1 (some msg) limit none
    (st2, outs ++ [o])

/-! ## Helper lemmas -/

lemma alookup_trackerSet_self (key : String) (v : Option JobError) (t : TrackerState) :
    alookup key (trackerSet key v t) = some v := by
  induction t with
  | nil => simp [trackerSet, alookup]
  | cons hd tl ih =>
    by_cases h : hd.1 = key <;> simp [trackerSet, alookup, h, ih]

lemma alookup_semSet_self (key : String) (s : Semaphore) (st : LimiterState) :
    alookup key (semSet key s st) = some s := by
  induction st with
  | nil => simp [semSet, alookup]
  | cons hd tl ih =>
    by_cases h : hd.1 = key <;> simp [semSet, alookup, h, ih]

lemma buildUpdates_idempotencyKey (t : TaskData) (m : ExecutionMessage) :
    (buildUpdates t m).idempotencyKey = m.idempotencyKey := by
  simp only [buildUpdates, normalizeMessage]
  split_ifs <;> rfl

lemma buildUpdates_dedupPolicy (t : TaskData) (m : ExecutionMessage)
    (h : m.dedupPolicy ≠ "") : (buildUpdates t m).dedupPolicy = m.dedupPolicy := by
  simp only [buildUpdates, normalizeMessage]
  split_ifs <;> simp_all

/-! ## C5: boolean flags merge as logical OR -/

lemma merge_noTimeout (base override : Config) :
    (mergeConfigDefaults base override).noTimeout = (base.noTimeout || override.noTimeout) := by
  simp only [mergeConfigDefaults]
  simp only [apply_ite Config.noTimeout]
  simp only [ite_self]
  cases override.noTimeout <;> simp

/-- C5: For every pair of Configs and every boolean flag (`NoTimeout`,
`Debug`, `RunOnce`, `ExitOnError`, `Transaction`, `Backoff.Jitter`),
`mergeConfigDefaults` yields the logical OR of the two flags: a base
true is never cleared, and an override true is always promoted. -/
theorem mergeConfigDefaults_bool_flags_or (base override : Config) :
    (mergeConfigDefaults base override).noTimeout = (base.noTimeout || override.noTimeout) ∧
    (mergeConfigDefaults base override).debug = (base.debug || override.debug) ∧
    (mergeConfigDefaults base override).runOnce = (base.runOnce || override.runOnce) ∧
    (mergeConfigDefaults base override).exitOnError = (base.exitOnError || override.exitOnError) ∧
    (mergeConfigDefaults base override).transaction = (base.transaction || override.transaction) ∧
    (mergeConfigDefaults base override).backoff.jitter =
      (base.backoff.jitter || override.backoff.jitter) := by
  refine ⟨merge_noTimeout base override, ?_, ?_, ?_, ?_, ?_⟩
  · simp only [mergeConfigDefaults]
    simp only [apply_ite Config.debug]
    simp only [ite_self]
    cases override.debug <;> simp
  · simp only [mergeConfigDefaults]
    simp only [apply_ite Config.runOnce]
    simp only [ite_self]
    cases override.runOnce <;> simp
  · simp only [mergeConfigDefaults]
    simp only [apply_ite Config.exitOnError]
    simp only [ite_self]
    cases override.exitOnError <;> simp
  · simp only [mergeConfigDefaults]
    simp only [apply_ite Config.transaction]
    simp only [ite_self]
    cases override.transaction <;> simp
  · simp only [mergeConfigDefaults, mergeBackoffDefaults]
    simp only [apply_ite Config.backoff, apply_ite BackoffConfig.jitter]
    simp only [ite_self]
    cases hj : override.backoff.jitter <;> simp [hj]

/-! ## C7: cron Update never leaves the schedule unsubscribed -/

/-- C7: Throughout `CronManager.Update` of a registered schedule the
new subscription is registered with the scheduler before the old one is
unsubscribed, so every intermediate state keeps at least one
subscription active; when registering the new subscription fails (and
on any earlier guard failure) the old subscription is retained. -/
theorem cronUpdate_never_fully_unsubscribed (resolveOk addOk : Bool) :
    ((cronUpdateStates resolveOk addOk).all fun s => s.oldActive || s.newActive) = true ∧
    (cronUpdateStates resolveOk false).getLast? = some ⟨true, false⟩ ∧
    (cronUpdateStates false addOk).getLast? = some ⟨true, false⟩ := by
  cases resolveOk <;> cases addOk <;> decide

/-! ## C3: exponential backoff and the cap -/

lemma int64Wrap_eq {x : Int} (h1 : -(2 ^ 63) ≤ x) (h2 : x < 2 ^ 63) : int64Wrap x = x := by
  have h0 : 0 ≤ x + 2 ^ 63 := by linarith
  have h64 : (2 : Int) ^ 64 = 2 ^ 63 + 2 ^ 63 := by norm_num
  have h3 : x + 2 ^ 63 < 2 ^ 64 := by omega
  unfold int64Wrap
  rw [Int.emod_eq_of_lt h0 h3]
  ring

lemma expLoop_min {M : Int} (hM : M < 2 ^ 62) :
    ∀ (fuel : Nat) (d : Int), 0 < d → d ≤ M → expLoop M fuel d = min (d * 2 ^ fuel) M := by
  intro fuel
  induction fuel with
  | zero =>
    intro d hd hdM
    simp [expLoop, min_eq_left hdM]
  | succ n ih =>
    intro d hd hdM
    have h62 : (2 : Int) ^ 63 = 2 ^ 62 + 2 ^ 62 := by norm_num
    have hw : int64Wrap (2 * d) = 2 * d :=
      int64Wrap_eq (by linarith [pow_pos (by norm_num : (0:Int) < 2) 63]) (by linarith)
    have h2n : (0 : Int) < 2 ^ n := pow_pos (by norm_num) n
    rw [expLoop, hw]
    by_cases hcap : 2 * d > M
    · rw [if_pos hcap]
      have hge : 2 * d ≤ d * 2 ^ (n + 1) := by
        have : 2 * d * 1 ≤ 2 * d * 2 ^ n :=
          mul_le_mul_of_nonneg_left h2n (by linarith)
        calc 2 * d = 2 * d * 1 := by ring
          _ ≤ 2 * d * 2 ^ n := this
          _ = d * 2 ^ (n + 1) := by ring
      rw [min_eq_right (by linarith)]
    · rw [if_neg hcap]
      rw [ih (2 * d) (by linarith) (by linarith)]
      congr 1
      ring

/-- C3 counterexample: with `Interval = 10 s` and `MaxInterval = 5 s`
(no jitter), attempt 1 of the exponential strategy returns the raw
interval of 10 s — not `Interval * 2^0` capped at 5 s — and so exceeds
`MaxInterval`: the doubling loop caps only after a doubling, and for
attempt 1 it never runs. -/
theorem computeBackoffDelay_first_attempt_uncapped :
    computeBackoffDelay id 1
        { strategy := "exponential", interval := 10000000000, maxInterval := 5000000000 } =
      10000000000 ∧
    ¬(computeBackoffDelay id 1
        { strategy := "exponential", interval := 10000000000, maxInterval := 5000000000 } ≤
      (5000000000 : Int)) := by
  constructor
  · rfl
  · decide

/-- C3 amended: for attempts `n ≥ 1` of the exponential strategy with
jitter disabled, whenever the effective interval (after the 100 ms /
5 s defaulting) does not already exceed the effective `MaxInterval`
and the cap is below 2^62 ns (so the `int64` doubling cannot overflow),
the delay equals `Interval * 2^(n-1)` capped at `MaxInterval` and hence
never exceeds `MaxInterval`. (The counterexample shows the cap does
not apply when `Interval > MaxInterval` at attempt 1, and jitter can
push a delay up to 50 % above the cap, so both are excluded.) -/
theorem computeBackoffDelay_exponential_capped (jf : Int → Int) (cfg : BackoffConfig) (n : Int)
    (hstrat : cfg.strategy = "exponential") (hjit : cfg.jitter = false) (hn : 1 ≤ n)
    (hIM : effInterval cfg ≤ effMaxInterval cfg) (hM : effMaxInterval cfg < 2 ^ 62) :
    computeBackoffDelay jf n cfg =
      min (effInterval cfg * 2 ^ (n - 1).toNat) (effMaxInterval cfg) ∧
    computeBackoffDelay jf n cfg ≤ effMaxInterval cfg := by
  have hI : 0 < effInterval cfg := by
    unfold effInterval
    split_ifs with h
    · norm_num [defaultBackoffInterval]
    · omega
  have hmain : computeBackoffDelay jf n cfg =
      min (effInterval cfg * 2 ^ (n - 1).toNat) (effMaxInterval cfg) := by
    unfold computeBackoffDelay
    rw [if_neg (by omega : ¬n ≤ 0), if_neg (by simp [hstrat]), if_pos hstrat]
    rw [applyJitter, if_pos (by simp [hjit])]
    exact expLoop_min hM _ _ hI hIM
  exact ⟨hmain, hmain ▸ min_le_right _ _⟩

/-- Witness for the amended C3 theorem at the profile of the
repository's own retry test: 50 ms interval, 150 ms cap, attempt 3. -/
theorem computeBackoffDelay_exponential_capped_witness :
    computeBackoffDelay id 3 ⟨"exponential", 50000000, 150000000, false⟩ =
      min (effInterval ⟨"exponential", 50000000, 150000000, false⟩ * 2 ^ ((3 : Int) - 1).toNat)
        (effMaxInterval ⟨"exponential", 50000000, 150000000, false⟩) ∧
    computeBackoffDelay id 3 ⟨"exponential", 50000000, 150000000, false⟩ ≤
      effMaxInterval ⟨"exponential", 50000000, 150000000, false⟩ :=
  computeBackoffDelay_exponential_capped id ⟨"exponential", 50000000, 150000000, false⟩ 3
    rfl rfl (by norm_num) (by decide) (by decide)

/-! ## C4: concurrency cap, non-blocking failure, release -/

lemma acquireN_fills (msg : ExecutionMessage) (N : Nat) (hN : 0 < N) :
    ∀ k, k ≤ N →
      acquireN msg (N : Int) k [] =
        ((if k = 0 then [] else [(msg.jobID, ⟨N, k⟩)]),
          List.replicate k (.acquired msg.jobID)) := by
  intro k
  induction k with
  | zero => intro _; simp [acquireN]
  | succ n ih =>
    intro h
    rw [acquireN, ih (by omega)]
    have hlim : ¬((N : Int) ≤ 0) := by exact_mod_cast by omega
    by_cases hn : n = 0
    · subst hn
      simp only [if_pos rfl]
      simp [limiterAcquire, hlim, limiterKey, alookup, semSet, Int.toNat_natCast, hN,
        List.replicate]
    · rw [if_neg hn, if_neg (Nat.succ_ne_zero n)]
      have hcnt : n < N := by omega
      simp [limiterAcquire, hlim, limiterKey, alookup, semSet, hcnt,
        List.replicate_succ' (n := n)]

/-- C4: starting from an empty limiter, `N > 0` successive `Acquire`
calls for the same compound key all succeed (filling the key's channel
to its capacity `N`), the `(N+1)`-th call returns the concurrency-limit
error immediately and leaves the state unchanged, running a returned
release closure frees exactly one slot, and a non-positive limit or a
nil message yields a no-op release with no error and no state change. -/
theorem limiter_cap_blocks_and_release_frees (msg : ExecutionMessage) (N : Nat)
    (st : LimiterState) (limit0 : Int) (hN : 0 < N) (hl : limit0 ≤ 0) :
    acquireN msg (N : Int) N [] =
      ([(msg.jobID, ⟨N, N⟩)], List.replicate N (.acquired msg.jobID)) ∧
    limiterAcquire [(msg.jobID, ⟨N, N⟩)] (some msg) (N : Int) none =
      ([(msg.jobID, ⟨N, N⟩)], .limitReached) ∧
    limiterRelease [(msg.jobID, ⟨N, N⟩)] (.acquired msg.jobID) =
      [(msg.jobID, ⟨N, N - 1⟩)] ∧
    limiterAcquire st (some msg) limit0 none = (st, .noop) ∧
    limiterAcquire st none (N : Int) none = (st, .noop) := by
  have hlim : ¬((N : Int) ≤ 0) := by exact_mod_cast by omega
  refine ⟨?_, ?_, ?_, ?_, ?_⟩
  · rw [acquireN_fills msg N hN N le_rfl, if_neg (by omega)]
  · simp [limiterAcquire, hlim, limiterKey, alookup]
  · simp [limiterRelease, alookup, semSet]
  · simp [limiterAcquire, hl]
  · simp [limiterAcquire]

/-- Witness for C4 at `N = 2`, a job id `"t"`, and limit `-1`. -/
theorem limiter_cap_blocks_and_release_frees_witness :
    acquireN { jobID := "t" } ((2 : Nat) : Int) 2 [] =
      ([("t", ⟨2, 2⟩)], List.replicate 2 (.acquired "t")) ∧
    limiterAcquire [("t", ⟨2, 2⟩)] (some { jobID := "t" }) ((2 : Nat) : Int) none =
      ([("t", ⟨2, 2⟩)], .limitReached) ∧
    limiterRelease [("t", ⟨2, 2⟩)] (.acquired "t") = [("t", ⟨2, 2 - 1⟩)] ∧
    limiterAcquire [] (some { jobID := "t" }) (-1) none = ([], .noop) ∧
    limiterAcquire [] none ((2 : Nat) : Int) none = ([], .noop) :=
  limiter_cap_blocks_and_release_frees { jobID := "t" } 2 [] (-1)
    (by decide) (by decide)

/-! ## Pipeline evaluation lemmas (for C1 and C2) -/

lemma buildExecutionMessage_ok (t : TaskData) (m : ExecutionMessage) (h : t.hasEngine = true) :
    buildExecutionMessage t m = .ok (buildUpdates t m) := by
  simp [buildExecutionMessage, h]

lemma acquireConcurrency_empty_not_limit (scopeEx : Option (ExecutionMessage → String))
    (m : ExecutionMessage) : (acquireConcurrency [] scopeEx m).2 ≠ .limitReached := by
  unfold acquireConcurrency limiterAcquire
  by_cases h : m.config.maxConcurrency ≤ 0
  · simp [h]
  · have hpos : 0 < m.config.maxConcurrency.toNat := by omega
    simp [h, alookup, hpos]

lemma commanderExecute_some (task : TaskData) (msg : ExecutionMessage)
    (quota : ExecutionMessage → Option JobError) (scopeEx : Option (ExecutionMessage → String))
    (eRes cancel : Nat → Option JobError) (jf : Int → Int) (st : CommanderState)
    (heng : task.hasEngine = true) :
    commanderExecute (some task) quota scopeEx eRes cancel jf (some msg) st =
      commanderRun quota scopeEx eRes cancel jf (buildUpdates task msg) st := by
  have h0 : commanderExecute (some task) quota scopeEx eRes cancel jf (some msg) st =
      (match buildExecutionMessage task msg with
       | .error e => (some e, st)
       | .ok finalMsg => commanderRun quota scopeEx eRes cancel jf finalMsg st) := rfl
  rw [h0, buildExecutionMessage_ok task msg heng]

lemma commanderRun_proceed (quota : ExecutionMessage → Option JobError)
    (scopeEx : Option (ExecutionMessage → String)) (eRes cancel : Nat → Option JobError)
    (jf : Int → Int) (fm : ExecutionMessage) (st : CommanderState)
    (t1 : TrackerState) (pe : Option JobError)
    (hval : messageValid fm = true)
    (hbe : beforeExecute st.tracker fm.idempotencyKey fm.dedupPolicy = (t1, .proceed, pe)) :
    commanderRun quota scopeEx eRes cancel jf fm st =
      commanderProceed quota scopeEx eRes cancel jf fm st t1 := by
  unfold commanderRun
  rw [hbe, hval]
  simp

lemma commanderRun_drop (quota : ExecutionMessage → Option JobError)
    (scopeEx : Option (ExecutionMessage → String)) (eRes cancel : Nat → Option JobError)
    (jf : Int → Int) (fm : ExecutionMessage) (st : CommanderState)
    (t1 : TrackerState) (pe : Option JobError)
    (hval : messageValid fm = true)
    (hbe : beforeExecute st.tracker fm.idempotencyKey fm.dedupPolicy = (t1, .drop, pe)) :
    commanderRun quota scopeEx eRes cancel jf fm st =
      (some .idempotentDrop, { st with tracker := t1 }) := by
  unfold commanderRun
  rw [hbe, hval]
  simp

lemma commanderProceed_empty_limiter (eRes cancel : Nat → Option JobError) (jf : Int → Int)
    (fm : ExecutionMessage) (st : CommanderState) (t1 : TrackerState)
    (hlim : st.limiter = []) :
    (commanderProceed defaultQuotaChecker none eRes cancel jf fm st t1).1 =
      (retryLoop (fun k => eRes (st.execCount + k)) cancel
        fm.config.retries fm.config.backoff jf).1 ∧
    (commanderProceed defaultQuotaChecker none eRes cancel jf fm st t1).2.execCount =
      st.execCount + (retryLoop (fun k => eRes (st.execCount + k)) cancel
        fm.config.retries fm.config.backoff jf).2 ∧
    (commanderProceed defaultQuotaChecker none eRes cancel jf fm st t1).2.tracker =
      afterExecute t1 fm.idempotencyKey fm.dedupPolicy
        (eRes (st.execCount + (retryLoop (fun k => eRes (st.execCount + k)) cancel
          fm.config.retries fm.config.backoff jf).2 - 1)) := by
  unfold commanderProceed
  rw [hlim]
  rcases hacq : acquireConcurrency [] none fm with ⟨l1, o⟩
  have hno : o ≠ .limitReached := by
    intro h
    exact acquireConcurrency_empty_not_limit none fm (by rw [hacq, h])
  rcases hrl : retryLoop (fun k => eRes (st.execCount + k)) cancel
      fm.config.retries fm.config.backoff jf with ⟨res, cnt⟩
  cases o with
  | limitReached => exact absurd rfl hno
  | noop => simp [defaultQuotaChecker, hacq, hrl]
  | acquired key => simp [defaultQuotaChecker, hacq, hrl]

lemma retryLoopAux_success (eRes cancel : Nat → Option JobError) (cfg : BackoffConfig)
    (jf : Int → Int) (rem a : Nat) (he : eRes a = none) :
    retryLoopAux eRes cancel cfg jf rem a = (none, a + 1) := by
  rw [retryLoopAux, he]

lemma retryLoop_first_success (eRes cancel : Nat → Option JobError) (R : Int)
    (cfg : BackoffConfig) (jf : Int → Int) (he : eRes 0 = none) :
    retryLoop eRes cancel R cfg jf = (none, 1) := by
  unfold retryLoop
  exact retryLoopAux_success eRes cancel cfg jf R.toNat 0 he

lemma afterExecute_write (t : TrackerState) (key policy : String) (e : Option JobError)
    (hkey : key ≠ "") (hpol : policy ≠ "" ∧ policy ≠ "ignore") :
    afterExecute t key policy e = trackerSet key e t := by
  simp [afterExecute, hkey, hpol.1, hpol.2]

/-- C1: for a task whose engine succeeds on its first invocation, two
`TaskCommander.Execute` calls (fresh tracker entry, default quota,
empty limiter) carrying the same non-empty idempotency key and the
`drop` policy cause exactly one engine execution: the first returns
nil after one engine invocation, the second returns the
`ErrIdempotentDrop` sentinel without invoking the engine. -/
theorem commander_drop_single_execution
    (task : TaskData) (msg1 msg2 : ExecutionMessage) (st0 : CommanderState)
    (eRes cancel : Nat → Option JobError) (jf : Int → Int)
    (heng : task.hasEngine = true)
    (hval1 : messageValid (buildUpdates task msg1) = true)
    (hval2 : messageValid (buildUpdates task msg2) = true)
    (hkey : msg1.idempotencyKey ≠ "")
    (hkey2 : msg2.idempotencyKey = msg1.idempotencyKey)
    (hpol1 : msg1.dedupPolicy = "drop") (hpol2 : msg2.dedupPolicy = "drop")
    (htr : alookup msg1.idempotencyKey st0.tracker = none)
    (hlim : st0.limiter = [])
    (hsucc : eRes st0.execCount = none) :
    (commanderExecute (some task) defaultQuotaChecker none eRes cancel jf
      (some msg1) st0).1 = none ∧
    (commanderExecute (some task) defaultQuotaChecker none eRes cancel jf
      (some msg1) st0).2.execCount = st0.execCount + 1 ∧
    (commanderExecute (some task) defaultQuotaChecker none eRes cancel jf (some msg2)
      (commanderExecute (some task) defaultQuotaChecker none eRes cancel jf
        (some msg1) st0).2).1 = some .idempotentDrop ∧
    (commanderExecute (some task) defaultQuotaChecker none eRes cancel jf (some msg2)
      (commanderExecute (some task) defaultQuotaChecker none eRes cancel jf
        (some msg1) st0).2).2.execCount = st0.execCount + 1 := by
  have hkey1' : (buildUpdates task msg1).idempotencyKey = msg1.idempotencyKey :=
    buildUpdates_idempotencyKey task msg1
  have hpol1' : (buildUpdates task msg1).dedupPolicy = "drop" := by
    rw [buildUpdates_dedupPolicy task msg1 (by simp [hpol1]), hpol1]
  have hkey2' : (buildUpdates task msg2).idempotencyKey = msg1.idempotencyKey := by
    rw [buildUpdates_idempotencyKey task msg2, hkey2]
  have hpol2' : (buildUpdates task msg2).dedupPolicy = "drop" := by
    rw [buildUpdates_dedupPolicy task msg2 (by simp [hpol2]), hpol2]
  -- first call evaluates through the proceed path
  have hbe1 : beforeExecute st0.tracker (buildUpdates task msg1).idempotencyKey
      (buildUpdates task msg1).dedupPolicy =
      (trackerSet msg1.idempotencyKey none st0.tracker, .proceed, none) := by
    rw [hkey1', hpol1']
    simp [beforeExecute, hkey, htr]
  have h1 : commanderExecute (some task) defaultQuotaChecker none eRes cancel jf
      (some msg1) st0 =
      commanderRun defaultQuotaChecker none eRes cancel jf (buildUpdates task msg1) st0 :=
    commanderExecute_some task msg1 _ _ _ _ _ _ heng
  have h1' := commanderRun_proceed defaultQuotaChecker none eRes cancel jf
    (buildUpdates task msg1) st0 _ _ hval1 hbe1
  have hp := commanderProceed_empty_limiter eRes cancel jf (buildUpdates task msg1) st0
    (trackerSet msg1.idempotencyKey none st0.tracker) hlim
  have hrl : retryLoop (fun k => eRes (st0.execCount + k)) cancel
      (buildUpdates task msg1).config.retries (buildUpdates task msg1).config.backoff jf =
      (none, 1) :=
    retryLoop_first_success _ _ _ _ _ (by simpa using hsucc)
  have hres1 : (commanderExecute (some task) defaultQuotaChecker none eRes cancel jf
      (some msg1) st0).1 = none := by
    rw [h1, h1', hp.1, hrl]
  have hcnt1 : (commanderExecute (some task) defaultQuotaChecker none eRes cancel jf
      (some msg1) st0).2.execCount = st0.execCount + 1 := by
    rw [h1, h1', hp.2.1, hrl]
  have htrk1 : (commanderExecute (some task) defaultQuotaChecker none eRes cancel jf
      (some msg1) st0).2.tracker =
      trackerSet msg1.idempotencyKey none
        (trackerSet msg1.idempotencyKey none st0.tracker) := by
    rw [h1, h1', hp.2.2, hrl]
    simp only [hkey1', hpol1']
    simp [afterExecute, hkey, hsucc]
  -- second call hits the drop path
  have htr2 : alookup msg1.idempotencyKey
      (commanderExecute (some task) defaultQuotaChecker none eRes cancel jf
        (some msg1) st0).2.tracker = some none := by
    rw [htrk1]
    exact alookup_trackerSet_self _ _ _
  have hbe2 : beforeExecute
      (commanderExecute (some task) defaultQuotaChecker none eRes cancel jf
        (some msg1) st0).2.tracker
      (buildUpdates task msg2).idempotencyKey (buildUpdates task msg2).dedupPolicy =
      ((commanderExecute (some task) defaultQuotaChecker none eRes cancel jf
        (some msg1) st0).2.tracker, .drop, none) := by
    rw [hkey2', hpol2']
    simp [beforeExecute, hkey, htr2]
  have h2 : commanderExecute (some task) defaultQuotaChecker none eRes cancel jf (some msg2)
      (commanderExecute (some task) defaultQuotaChecker none eRes cancel jf
        (some msg1) st0).2 =
      commanderRun defaultQuotaChecker none eRes cancel jf (buildUpdates task msg2)
        (commanderExecute (some task) defaultQuotaChecker none eRes cancel jf
          (some msg1) st0).2 :=
    commanderExecute_some task msg2 _ _ _ _ _ _ heng
  have h2' := commanderRun_drop defaultQuotaChecker none eRes cancel jf
    (buildUpdates task msg2) _ _ _ hval2 hbe2
  refine ⟨hres1, hcnt1, ?_, ?_⟩
  · rw [h2, h2']
  · rw [h2, h2']
    exact hcnt1

/-- Witness for C1: a concrete task, message, fresh state and an engine
oracle succeeding on call 0. -/
theorem commander_drop_single_execution_witness :
    (commanderExecute (some ⟨"t", "/p", {}, "echo", true⟩) defaultQuotaChecker none
      (fun _ => none) (fun _ => none) id
      (some ⟨"t", "/p", {}, none, "k", "drop", none⟩) {}).1 = none ∧
    (commanderExecute (some ⟨"t", "/p", {}, "echo", true⟩) defaultQuotaChecker none
      (fun _ => none) (fun _ => none) id
      (some ⟨"t", "/p", {}, none, "k", "drop", none⟩) {}).2.execCount =
      CommanderState.execCount {} + 1 ∧
    (commanderExecute (some ⟨"t", "/p", {}, "echo", true⟩) defaultQuotaChecker none
      (fun _ => none) (fun _ => none) id
      (some ⟨"t", "/p", {}, none, "k", "drop", none⟩)
      (commanderExecute (some ⟨"t", "/p", {}, "echo", true⟩) defaultQuotaChecker none
        (fun _ => none) (fun _ => none) id
        (some ⟨"t", "/p", {}, none, "k", "drop", none⟩) {}).2).1 =
      some .idempotentDrop ∧
    (commanderExecute (some ⟨"t", "/p", {}, "echo", true⟩) defaultQuotaChecker none
      (fun _ => none) (fun _ => none) id
      (some ⟨"t", "/p", {}, none, "k", "drop", none⟩)
      (commanderExecute (some ⟨"t", "/p", {}, "echo", true⟩) defaultQuotaChecker none
        (fun _ => none) (fun _ => none) id
        (some ⟨"t", "/p", {}, none, "k", "drop", none⟩) {}).2).2.execCount =
      CommanderState.execCount {} + 1 :=
  commander_drop_single_execution ⟨"t", "/p", {}, "echo", true⟩
    ⟨"t", "/p", {}, none, "k", "drop", none⟩ ⟨"t", "/p", {}, none, "k", "drop", none⟩
    {} (fun _ => none) (fun _ => none) id rfl (by decide) (by decide) (by decide) rfl
    rfl rfl rfl rfl rfl

lemma retryLoopAux_all_fail (eRes cancel : Nat → Option JobError) (cfg : BackoffConfig)
    (jf : Int → Int) (f : Nat → JobError)
    (hf : ∀ k, eRes k = some (f k)) (hc : ∀ a, cancel a = none) :
    ∀ (rem a : Nat), retryLoopAux eRes cancel cfg jf rem a = (some (f (a + rem)), a + rem + 1) := by
  intro rem
  induction rem with
  | zero => intro a; rw [retryLoopAux, hf a]; simp
  | succ r ih =>
    intro a
    rw [retryLoopAux, hf a]
    have hsleep :
        (if computeBackoffDelay jf ((a : Int) + 1) cfg ≤ 0 then none else cancel a) = none := by
      split_ifs with h
      · rfl
      · exact hc a
    simp only [hsleep]
    rw [ih (a + 1)]
    have h1 : a + 1 + r = a + (r + 1) := by omega
    rw [h1]

lemma retryLoopAux_cancelled (eRes cancel : Nat → Option JobError) (cfg : BackoffConfig)
    (jf : Int → Int) (f : Nat → JobError) (j : Nat) (ce : JobError)
    (hf : ∀ k, eRes k = some (f k)) (hcj : cancel j = some ce)
    (hd : 0 < computeBackoffDelay jf (j + 1) cfg) :
    ∀ (rem a : Nat), a ≤ j → j - a < rem → (∀ i, a ≤ i → i < j → cancel i = none) →
      retryLoopAux eRes cancel cfg jf rem a = (some ce, j + 1) := by
  intro rem
  induction rem with
  | zero => intro a _ h; omega
  | succ r ih =>
    intro a haj hrem hcnone
    rw [retryLoopAux, hf a]
    by_cases heq : a = j
    · subst heq
      have hsleep :
          (if computeBackoffDelay jf ((a : Int) + 1) cfg ≤ 0 then none else cancel a) =
            some ce := by
        rw [if_neg (by omega), hcj]
      simp [hsleep]
    · have hlt : a < j := by omega
      have hsleep :
          (if computeBackoffDelay jf ((a : Int) + 1) cfg ≤ 0 then none else cancel a) = none := by
        split_ifs with h
        · rfl
        · exact hcnone a le_rfl hlt
      simp only [hsleep]
      exact ih (a + 1) (by omega) (by omega) (fun i hi hij => hcnone i (by omega) hij)

/-- C2: with the merged `Config.Retries = R ≥ 0` and an engine that
fails on every invocation, `TaskCommander.Execute` (valid message,
dedup proceed on a fresh tracker entry or empty key, default quota,
empty limiter) invokes the engine exactly `R + 1` times and returns the
last attempt's error when no cancellation occurs (`cancelA`); and when
the context is cancelled during the backoff sleep following attempt
`j < R` (`cancelB`, with a positive computed delay for that sleep),
it returns the context's error after exactly `j + 1` invocations,
performing no further attempts. -/
theorem commander_retry_count_and_cancellation
    (task : TaskData) (msg : ExecutionMessage) (st0 : CommanderState)
    (eRes cancelA cancelB : Nat → Option JobError) (jf : Int → Int)
    (f : Nat → JobError) (j : Nat) (ce : JobError)
    (heng : task.hasEngine = true)
    (hval : messageValid (buildUpdates task msg) = true)
    (htr : alookup (buildUpdates task msg).idempotencyKey st0.tracker = none)
    (hlim : st0.limiter = [])
    (_hR : 0 ≤ (buildUpdates task msg).config.retries)
    (hfail : ∀ k, eRes (st0.execCount + k) = some (f k))
    (hcA : ∀ a, cancelA a = none)
    (hj : j < (buildUpdates task msg).config.retries.toNat)
    (hcB : ∀ i, i < j → cancelB i = none)
    (hcBj : cancelB j = some ce)
    (hdj : 0 < computeBackoffDelay jf (j + 1) (buildUpdates task msg).config.backoff) :
    (commanderExecute (some task) defaultQuotaChecker none eRes cancelA jf
      (some msg) st0).1 = some (f (buildUpdates task msg).config.retries.toNat) ∧
    (commanderExecute (some task) defaultQuotaChecker none eRes cancelA jf
      (some msg) st0).2.execCount =
      st0.execCount + ((buildUpdates task msg).config.retries.toNat + 1) ∧
    (commanderExecute (some task) defaultQuotaChecker none eRes cancelB jf
      (some msg) st0).1 = some ce ∧
    (commanderExecute (some task) defaultQuotaChecker none eRes cancelB jf
      (some msg) st0).2.execCount = st0.execCount + (j + 1) := by
  have hbe : ∃ t1 pe, beforeExecute st0.tracker (buildUpdates task msg).idempotencyKey
      (buildUpdates task msg).dedupPolicy = (t1, .proceed, pe) := by
    unfold beforeExecute
    by_cases h : (buildUpdates task msg).idempotencyKey = "" ∨
        (buildUpdates task msg).dedupPolicy = "" ∨
        (buildUpdates task msg).dedupPolicy = "ignore"
    · rw [if_pos h]
      exact ⟨st0.tracker, none, rfl⟩
    · rw [if_neg h, htr]
      exact ⟨trackerSet (buildUpdates task msg).idempotencyKey none st0.tracker, none, rfl⟩
  obtain ⟨t1, pe, hbe⟩ := hbe
  have hfail' : ∀ k, (fun k => eRes (st0.execCount + k)) k = some (f k) := hfail
  -- no-cancellation run
  have h1A : commanderExecute (some task) defaultQuotaChecker none eRes cancelA jf
      (some msg) st0 =
      commanderRun defaultQuotaChecker none eRes cancelA jf (buildUpdates task msg) st0 :=
    commanderExecute_some task msg _ _ _ _ _ _ heng
  have h1A' := commanderRun_proceed defaultQuotaChecker none eRes cancelA jf
    (buildUpdates task msg) st0 _ _ hval hbe
  have hpA := commanderProceed_empty_limiter eRes cancelA jf (buildUpdates task msg) st0 t1 hlim
  have hrlA : retryLoop (fun k => eRes (st0.execCount + k)) cancelA
      (buildUpdates task msg).config.retries (buildUpdates task msg).config.backoff jf =
      (some (f (buildUpdates task msg).config.retries.toNat),
        (buildUpdates task msg).config.retries.toNat + 1) := by
    unfold retryLoop
    have := retryLoopAux_all_fail (fun k => eRes (st0.execCount + k)) cancelA
      (buildUpdates task msg).config.backoff jf f hfail' hcA
      (buildUpdates task msg).config.retries.toNat 0
    simpa using this
  -- cancelled run
  have h1B : commanderExecute (some task) defaultQuotaChecker none eRes cancelB jf
      (some msg) st0 =
      commanderRun defaultQuotaChecker none eRes cancelB jf (buildUpdates task msg) st0 :=
    commanderExecute_some task msg _ _ _ _ _ _ heng
  have h1B' := commanderRun_proceed defaultQuotaChecker none eRes cancelB jf
    (buildUpdates task msg) st0 _ _ hval hbe
  have hpB := commanderProceed_empty_limiter eRes cancelB jf (buildUpdates task msg) st0 t1 hlim
  have hrlB : retryLoop (fun k => eRes (st0.execCount + k)) cancelB
      (buildUpdates task msg).config.retries (buildUpdates task msg).config.backoff jf =
      (some ce, j + 1) := by
    unfold retryLoop
    exact retryLoopAux_cancelled (fun k => eRes (st0.execCount + k)) cancelB
      (buildUpdates task msg).config.backoff jf f j ce hfail' hcBj hdj
      (buildUpdates task msg).config.retries.toNat 0 (by omega) (by omega)
      (fun i _ hij => hcB i hij)
  refine ⟨?_, ?_, ?_, ?_⟩
  · rw [h1A, h1A', hpA.1, hrlA]
  · rw [h1A, h1A', hpA.2.1, hrlA]
  · rw [h1B, h1B', hpB.1, hrlB]
  · rw [h1B, h1B', hpB.2.1, hrlB]

/-- Witness for C2: retries 2, fixed 10 ms backoff, an engine failing
on every call, no cancellation for the first run and a context
cancelled during the sleep after attempt 0 for the second. -/
theorem commander_retry_count_and_cancellation_witness :
    (commanderExecute (some ⟨"t", "/p",
        { retries := 2, backoff := ⟨"fixed", 10000000, 0, false⟩ }, "echo", true⟩)
      defaultQuotaChecker none
      (fun k => some (.engineFailure k)) (fun _ => none) id
      (some ⟨"", "", {}, none, "", "", none⟩) {}).1 =
      some (.engineFailure ((2 : Int).toNat)) ∧
    (commanderExecute (some ⟨"t", "/p",
        { retries := 2, backoff := ⟨"fixed", 10000000, 0, false⟩ }, "echo", true⟩)
      defaultQuotaChecker none
      (fun k => some (.engineFailure k)) (fun _ => none) id
      (some ⟨"", "", {}, none, "", "", none⟩) {}).2.execCount =
      CommanderState.execCount {} + ((2 : Int).toNat + 1) ∧
    (commanderExecute (some ⟨"t", "/p",
        { retries := 2, backoff := ⟨"fixed", 10000000, 0, false⟩ }, "echo", true⟩)
      defaultQuotaChecker none
      (fun k => some (.engineFailure k)) (fun _ => some (.ctxDone 7)) id
      (some ⟨"", "", {}, none, "", "", none⟩) {}).1 = some (.ctxDone 7) ∧
    (commanderExecute (some ⟨"t", "/p",
        { retries := 2, backoff := ⟨"fixed", 10000000, 0, false⟩ }, "echo", true⟩)
      defaultQuotaChecker none
      (fun k => some (.engineFailure k)) (fun _ => some (.ctxDone 7)) id
      (some ⟨"", "", {}, none, "", "", none⟩) {}).2.execCount =
      CommanderState.execCount {} + (0 + 1) :=
  commander_retry_count_and_cancellation
    ⟨"t", "/p",
      { retries := 2, backoff := ⟨"fixed", 10000000, 0, false⟩ }, "echo", true⟩
    ⟨"", "", {}, none, "", "", none⟩ {}
    (fun k => some (.engineFailure k)) (fun _ => none) (fun _ => some (.ctxDone 7)) id
    .engineFailure 0 (.ctxDone 7) rfl (by decide) (by decide) rfl (by decide)
    (fun k => by simp) (fun a => rfl) (by decide) (fun i hi => absurd hi (by omega))
    rfl (by decide)

/-! ## C6: sanitizer isolation -/

/-- C6 counterexample: `copyParams` is a shallow copy, so a sanitizer
that mutates a nested map reached through a value of the copy (here the
map under key `"m"`) changes the map object reachable from the caller's
`Params`: after `EncodeEnvelope` the nested object at reference 1 has
`x = 2` where the caller stored `x = 1`. The caller's map is not
unchanged "including nested maps reachable from its values". -/
theorem encodeEnvelope_nested_map_mutated :
    (encodeEnvelopeStore [[("m", .pRef 1)], [("x", .pInt 1)]] { params := some 0 }
      (some nestedMutatingSanitizer)).1[1]? = some [("x", .pInt 2)] ∧
    ([[("m", .pRef 1)], [("x", .pInt 1)]] : ParamStore)[1]? = some [("x", .pInt 1)] ∧
    ([("x", PVal.pInt 2)] : PMap) ≠ [("x", PVal.pInt 1)] := by
  refine ⟨?_, by decide, by decide⟩
  rfl

/-- C6 amended: `EncodeEnvelope` hands the sanitizer a freshly
allocated shallow copy of `Params` — never the caller's map object —
so a sanitizer whose writes stay within the map object it is handed
leaves every pre-existing map object (in particular the caller's
top-level map) unchanged; nested maps are shared between the copy and
the original, so a sanitizer reaching through them can still mutate
them (as the counterexample shows). -/
theorem encodeEnvelope_sanitizer_gets_fresh_copy
    (store : ParamStore) (env : Envelope) (san : Sanitizer) (p : Nat) (pm : PMap) (r : Nat)
    (henv : envelopeValid env = true)
    (hp : env.params = some p) (hpm : store[p]? = some pm) (hne : pm ≠ [])
    (hr : r < store.length)
    (hframe : ∀ st c q, q ≠ c → (san st (some c)).1[q]? = st[q]?) :
    encodeEnvelopeStore store env (some san) =
      ((san (store ++ [pm] ++ [pm]) (some (store.length + 1))).1,
        .ok (san (store ++ [pm] ++ [pm]) (some (store.length + 1))).2) ∧
    (encodeEnvelopeStore store env (some san)).1[r]? = store[r]? := by
  have hplt : p < store.length := by
    by_contra h
    rw [List.getElem?_eq_none (by omega)] at hpm
    exact Option.noConfusion hpm
  have hred : ∀ (st : ParamStore), copyParams st (some p) =
      (match st[p]? with
       | none => (st, none)
       | some pmx => if pmx = [] then (st, none) else (st ++ [pmx], some st.length)) :=
    fun _ => rfl
  have hcopy1 : copyParams store (some p) = (store ++ [pm], some store.length) := by
    rw [hred, hpm]
    simp [hne]
  have hpm2 : (store ++ [pm])[p]? = some pm := by
    rw [List.getElem?_append_left hplt]
    exact hpm
  have hcopy2 : copyParams (store ++ [pm]) (some p) =
      (store ++ [pm] ++ [pm], some (store.length + 1)) := by
    rw [hred, hpm2]
    simp [hne]
  have hmain : encodeEnvelopeStore store env (some san) =
      ((san (store ++ [pm] ++ [pm]) (some (store.length + 1))).1,
        .ok (san (store ++ [pm] ++ [pm]) (some (store.length + 1))).2) := by
    unfold encodeEnvelopeStore sanitizeParams
    rw [if_neg (by simp [henv])]
    simp only [hp, hcopy1, hcopy2]
  refine ⟨hmain, ?_⟩
  rw [hmain]
  have hfr := hframe (store ++ [pm] ++ [pm]) (store.length + 1) r (by omega)
  rw [hfr]
  rw [List.append_assoc]
  rw [List.getElem?_append_left hr]

/-- Witness for the amended C6 theorem: the identity sanitizer over a
one-entry store. -/
theorem encodeEnvelope_sanitizer_gets_fresh_copy_witness :
    encodeEnvelopeStore [[("keep", .pStr "value")]] { params := some 0 }
      (some (fun st c => (st, c))) =
      (((fun (st : ParamStore) (c : Option Nat) => (st, c))
          ([[("keep", PVal.pStr "value")]] ++ [[("keep", PVal.pStr "value")]] ++
            [[("keep", PVal.pStr "value")]]) (some ([[("keep", PVal.pStr "value")]].length + 1))).1,
        .ok ((fun (st : ParamStore) (c : Option Nat) => (st, c))
          ([[("keep", PVal.pStr "value")]] ++ [[("keep", PVal.pStr "value")]] ++
            [[("keep", PVal.pStr "value")]]) (some ([[("keep", PVal.pStr "value")]].length + 1))).2) ∧
    (encodeEnvelopeStore [[("keep", .pStr "value")]] { params := some 0 }
      (some (fun st c => (st, c)))).1[0]? = [[("keep", PVal.pStr "value")]][0]? :=
  encodeEnvelope_sanitizer_gets_fresh_copy [[("keep", .pStr "value")]] { params := some 0 }
    (fun st c => (st, c)) 0 [("keep", .pStr "value")] 0 rfl rfl rfl (by decide) (by decide)
    (fun st c q hq => rfl)

/-! ## C10: in-place completion of the caller's message -/

lemma buildUpdates_jobID (t : TaskData) (m : ExecutionMessage) :
    (buildUpdates t m).jobID = (if m.jobID = "" then t.id else m.jobID) := by
  simp only [buildUpdates, normalizeMessage]
  split_ifs <;> simp_all

lemma buildUpdates_scriptPath (t : TaskData) (m : ExecutionMessage) :
    (buildUpdates t m).scriptPath = (if m.scriptPath = "" then t.scriptPath else m.scriptPath) := by
  simp only [buildUpdates, normalizeMessage]
  split_ifs <;> simp_all

lemma buildUpdates_config (t : TaskData) (m : ExecutionMessage) :
    (buildUpdates t m).config = mergeConfigDefaults t.config m.config := by
  simp only [buildUpdates, normalizeMessage]
  split_ifs <;> simp_all

lemma buildUpdates_script_attached (t : TaskData) (m : ExecutionMessage)
    (hscript : alookup "script" (m.parameters.getD []) = none) :
    (buildUpdates t m).parameters =
      some ((m.parameters.getD []) ++ [("script", .vStr t.scriptContent)]) := by
  obtain ⟨jid, sp, cfg, params, ik, dp, res⟩ := m
  cases params with
  | none =>
    simp only [Option.getD] at hscript
    simp only [buildUpdates, normalizeMessage]
    split_ifs <;> simp_all [alookup]
  | some ps =>
    simp only [Option.getD] at hscript
    simp only [buildUpdates, normalizeMessage]
    split_ifs <;> simp_all

/-- C10: for a `baseTask`-backed task and a non-nil caller message,
`CompleteExecutionMessage` delegates to the task's
`buildExecutionMessage`, which mutates the caller's message object in
place and returns the same pointer (no other heap cell changes and no
new message is allocated): an empty `JobID`/`ScriptPath` is overwritten
with the task's values, `Config` is replaced by the merged config, and
`Parameters` (here lacking a `"script"` entry) gains `"script"` bound
to the task's cached script content. -/
theorem completeExecutionMessage_in_place
    (t : TaskData) (heap : MsgHeap) (p q : Nat) (msg : ExecutionMessage)
    (heng : t.hasEngine = true) (hp : heap[p]? = some msg) (hq : q ≠ p)
    (hscript : alookup "script" (msg.parameters.getD []) = none) :
    completeExecutionMessageH t heap (some p) = buildExecutionMessageH t heap (some p) ∧
    buildExecutionMessageH t heap (some p) = .ok (heap.set p (buildUpdates t msg), p) ∧
    (heap.set p (buildUpdates t msg)).length = heap.length ∧
    (heap.set p (buildUpdates t msg))[q]? = heap[q]? ∧
    (buildUpdates t msg).jobID = (if msg.jobID = "" then t.id else msg.jobID) ∧
    (buildUpdates t msg).scriptPath =
      (if msg.scriptPath = "" then t.scriptPath else msg.scriptPath) ∧
    (buildUpdates t msg).config = mergeConfigDefaults t.config msg.config ∧
    (buildUpdates t msg).parameters =
      some ((msg.parameters.getD []) ++ [("script", .vStr t.scriptContent)]) := by
  refine ⟨rfl, ?_, by simp, List.getElem?_set_ne (by omega), ?_, ?_, ?_, ?_⟩
  · have h0 : buildExecutionMessageH t heap (some p) =
        (if ¬t.hasEngine then .error (.noEngine t.id)
         else match heap[p]? with
         | none => .error (.other "dangling pointer")
         | some m => .ok (heap.set p (buildUpdates t m), p)) := rfl
    rw [h0, if_neg (by simp [heng]), hp]
  · exact buildUpdates_jobID t msg
  · exact buildUpdates_scriptPath t msg
  · exact buildUpdates_config t msg
  · exact buildUpdates_script_attached t msg hscript

/-- Witness for C10: a one-cell heap holding a message with an empty
job id and no `"script"` parameter. -/
theorem completeExecutionMessage_in_place_witness :
    completeExecutionMessageH ⟨"t", "/p", {}, "echo hi", true⟩
        [⟨"", "", {}, none, "", "", none⟩] (some 0) =
      buildExecutionMessageH ⟨"t", "/p", {}, "echo hi", true⟩
        [⟨"", "", {}, none, "", "", none⟩] (some 0) ∧
    buildExecutionMessageH ⟨"t", "/p", {}, "echo hi", true⟩
        [⟨"", "", {}, none, "", "", none⟩] (some 0) =
      .ok ([⟨"", "", {}, none, "", "", none⟩].set 0
        (buildUpdates ⟨"t", "/p", {}, "echo hi", true⟩ ⟨"", "", {}, none, "", "", none⟩), 0) ∧
    ([⟨"", "", {}, none, "", "", none⟩].set 0
      (buildUpdates ⟨"t", "/p", {}, "echo hi", true⟩ ⟨"", "", {}, none, "", "", none⟩)).length =
      [(⟨"", "", {}, none, "", "", none⟩ : ExecutionMessage)].length ∧
    ([⟨"", "", {}, none, "", "", none⟩].set 0
      (buildUpdates ⟨"t", "/p", {}, "echo hi", true⟩ ⟨"", "", {}, none, "", "", none⟩))[1]? =
      [(⟨"", "", {}, none, "", "", none⟩ : ExecutionMessage)][1]? ∧
    (buildUpdates ⟨"t", "/p", {}, "echo hi", true⟩ ⟨"", "", {}, none, "", "", none⟩).jobID =
      (if (⟨"", "", {}, none, "", "", none⟩ : ExecutionMessage).jobID = "" then "t"
        else (⟨"", "", {}, none, "", "", none⟩ : ExecutionMessage).jobID) ∧
    (buildUpdates ⟨"t", "/p", {}, "echo hi", true⟩ ⟨"", "", {}, none, "", "", none⟩).scriptPath =
      (if (⟨"", "", {}, none, "", "", none⟩ : ExecutionMessage).scriptPath = "" then "/p"
        else (⟨"", "", {}, none, "", "", none⟩ : ExecutionMessage).scriptPath) ∧
    (buildUpdates ⟨"t", "/p", {}, "echo hi", true⟩ ⟨"", "", {}, none, "", "", none⟩).config =
      mergeConfigDefaults {} {} ∧
    (buildUpdates ⟨"t", "/p", {}, "echo hi", true⟩ ⟨"", "", {}, none, "", "", none⟩).parameters =
      some ((((⟨"", "", {}, none, "", "", none⟩ : ExecutionMessage)).parameters.getD [] ++
        [("script", .vStr "echo hi")])) :=
  completeExecutionMessage_in_place ⟨"t", "/p", {}, "echo hi", true⟩
    [⟨"", "", {}, none, "", "", none⟩] 0 1 ⟨"", "", {}, none, "", "", none⟩
    rfl rfl (by decide) rfl

/-! ## C8: the schedule-quoting preprocessor -/

/-- C8 counterexample: the preprocessor's optional prefix group is
`(?:-+\s*)?` — a run of dashes only — so a `schedule: @hourly` line
behind a `#` or `//` comment prefix is NOT rewritten, contradicting
"optionally preceded by a comment prefix of any of the recognized
styles (`//`, `#`, `--`)"; likewise `@foo` is not an accepted directive. -/
theorem scheduleQuotes_hash_prefix_not_rewritten :
    scheduleQuotesProcess "# schedule: @hourly" = "# schedule: @hourly" ∧
    scheduleQuotesProcess "// schedule: @every 5m" = "// schedule: @every 5m" ∧
    ("# schedule: @hourly" : String) ≠ "# schedule: \"@hourly\"" ∧
    scheduleQuotesProcess "schedule: @foo" = "schedule: @foo" := by
  refine ⟨by decide, by decide, by decide, by decide⟩

lemma leadsWith_self_append (l r : List Char) : leadsWith l (l ++ r) = true := by
  induction l with
  | nil => rfl
  | cons c cs ih => simp [leadsWith, ih]

lemma takeWhile_replicate_append (p : Char → Bool) (c : Char) (a : Nat) (rest : List Char)
    (hp : p c = true) (hrest : ∀ ch, rest.head? = some ch → p ch = false) :
    (List.replicate a c ++ rest).takeWhile p = List.replicate a c := by
  induction a with
  | zero =>
    cases rest with
    | nil => rfl
    | cons ch tl =>
      simp [List.takeWhile_cons, hrest ch rfl]
  | succ n ih =>
    simp [List.replicate_succ, List.takeWhile_cons, hp, ih]

lemma drop_replicate_append (c : Char) (a : Nat) (rest : List Char) :
    (List.replicate a c ++ rest).drop a = rest := by
  have h := List.drop_left (List.replicate a c) rest
  rwa [List.length_replicate] at h

lemma drop_two_replicate_append (x y : Char) (a b : Nat) (rest : List Char) :
    (List.replicate a x ++ (List.replicate b y ++ rest)).drop (a + b) = rest := by
  rw [← List.append_assoc]
  have hlen : (List.replicate a x ++ List.replicate b y).length = a + b := by simp
  have h := List.drop_left (List.replicate a x ++ List.replicate b y) rest
  rwa [hlen] at h

lemma splitOnNL_no_newline (l : List Char) (h : '\x0a' ∉ l) : splitOnNL l = [l] := by
  induction l with
  | nil => rfl
  | cons c tl ih =>
    have hc : ¬(c = '\x0a') := fun he => h (he ▸ List.mem_cons_self c tl)
    simp only [splitOnNL, if_neg hc]
    rw [ih (fun hm => h (List.mem_cons_of_mem c hm))]

lemma directiveMatch_append (d : String) (tail : List Char) (hd : d ∈ scheduleDirectives)
    (htail : ∀ ch, tail.head? = some ch → isWordCharGo ch = false) :
    directiveMatch (d.data ++ tail) = true := by
  unfold directiveMatch
  rw [List.any_eq_true]
  refine ⟨d, hd, ?_⟩
  rw [Bool.and_eq_true]
  constructor
  · exact leadsWith_self_append d.data tail
  · rw [List.drop_left]
    cases tail with
    | nil => rfl
    | cons ch tl => simp [htail ch rfl]

lemma matchScheduleRest_eval (g1 : List Char) (c : Nat) (d : String) (tail : List Char)
    (hd : d ∈ scheduleDirectives)
    (htail : ∀ ch, tail.head? = some ch → isWordCharGo ch = false) :
    matchScheduleRest g1
        ("schedule:".data ++ (List.replicate c ' ' ++ ('@' :: (d.data ++ tail)))) =
      some (g1, "schedule:".data ++ List.replicate c ' ', '@' :: (d.data ++ tail)) := by
  unfold matchScheduleRest
  rw [if_pos (leadsWith_self_append _ _)]
  have h9 : ("schedule:".data ++ (List.replicate c ' ' ++ ('@' :: (d.data ++ tail)))).drop 9 =
      List.replicate c ' ' ++ ('@' :: (d.data ++ tail)) := by
    have h := List.drop_left "schedule:".data (List.replicate c ' ' ++ ('@' :: (d.data ++ tail)))
    have hlen : ("schedule:".data).length = 9 := by decide
    rwa [hlen] at h
  simp only [h9]
  have hsp : (List.replicate c ' ' ++ ('@' :: (d.data ++ tail))).takeWhile isSpaceGo =
      List.replicate c ' ' :=
    takeWhile_replicate_append isSpaceGo ' ' c _ (by decide)
      (fun ch hch => by simp at hch; rw [← hch]; decide)
  simp only [hsp, List.length_replicate]
  rw [drop_replicate_append]
  have hred : (match '@' :: (d.data ++ tail) with
      | '@' :: rest4 =>
        if directiveMatch rest4 = true then
          some (g1, "schedule:".data ++ List.replicate c ' ', '@' :: rest4)
        else none
      | _ => none) =
      if directiveMatch (d.data ++ tail) = true then
        some (g1, "schedule:".data ++ List.replicate c ' ', '@' :: (d.data ++ tail))
      else none := rfl
  rw [hred, if_pos (directiveMatch_append d tail hd htail)]

/-- C8 amended: the content preprocessor stage (applied to the whole
input before `Parse` scans for a header) rewrites every line of the
form `<dashes><ws>schedule:<ws>@<directive><boundary>…` — an optional
run of dashes (the `--` SQL comment style, or no prefix at all; never
`#` or `//`), then `schedule:`, then one of the recognized cron
directives (`@every`, `@yearly`, `@annually`, `@monthly`, `@weekly`,
`@daily`, `@midnight`, `@hourly`, `@reboot`) at a word boundary — into
the same line with the schedule value quoted from `@` to end of line;
this holds for every dash count, every amount of whitespace, every
recognized directive and every boundary-respecting remainder. -/
theorem scheduleQuotes_rewrites_dash_prefixed_directives
    (a b c : Nat) (d : String) (tail : List Char)
    (hd : d ∈ scheduleDirectives)
    (hb : a = 0 → b = 0)
    (htail : ∀ ch, tail.head? = some ch → isWordCharGo ch = false)
    (hnl : '\x0a' ∉ (List.replicate a '-' ++ (List.replicate b ' ' ++
      ("schedule:".data ++ (List.replicate c ' ' ++ ('@' :: (d.data ++ tail)))))) ) :
    scheduleQuotesProcess (String.mk (List.replicate a '-' ++ (List.replicate b ' ' ++
        ("schedule:".data ++ (List.replicate c ' ' ++ ('@' :: (d.data ++ tail))))))) =
      String.mk (List.replicate a '-' ++ (List.replicate b ' ' ++
        ("schedule:".data ++ (List.replicate c ' ' ++
          ('"' :: ('@' :: (d.data ++ tail)) ++ ['"']))))) ∧
    applyProcesors "-- config\n-- schedule: @daily\nselect 1;" =
      "-- config\n-- schedule: \"@daily\"\nselect 1;" := by
  constructor
  · have hmatch : matchScheduleParts (List.replicate a '-' ++ (List.replicate b ' ' ++
        ("schedule:".data ++ (List.replicate c ' ' ++ ('@' :: (d.data ++ tail)))))) =
        some (List.replicate a '-' ++ List.replicate b ' ',
          "schedule:".data ++ List.replicate c ' ', '@' :: (d.data ++ tail)) := by
      unfold matchScheduleParts
      cases a with
      | zero =>
        rw [hb rfl]
        simp only [List.replicate, List.nil_append]
        have hdash : (("schedule:".data ++ (List.replicate c ' ' ++
            ('@' :: (d.data ++ tail)))).takeWhile fun x => x = '-') = [] := by
          simp [List.takeWhile_cons]
        rw [hdash]
        simp only [if_pos rfl]
        simpa using matchScheduleRest_eval [] c d tail hd htail
      | succ n =>
        have hheadrest : ∀ ch, (List.replicate b ' ' ++ ("schedule:".data ++
            (List.replicate c ' ' ++ ('@' :: (d.data ++ tail))))).head? = some ch →
            (ch = '-' : Bool) = false := by
          intro ch hch
          cases b with
          | zero => simp at hch; rw [← hch]; decide
          | succ m => simp [List.replicate_succ] at hch; rw [← hch]; decide
        have hdash : ((List.replicate (n + 1) '-' ++ (List.replicate b ' ' ++
            ("schedule:".data ++ (List.replicate c ' ' ++
              ('@' :: (d.data ++ tail)))))).takeWhile fun x => x = '-') =
            List.replicate (n + 1) '-' :=
          takeWhile_replicate_append _ '-' (n + 1) _ (by decide) hheadrest
        rw [hdash]
        rw [if_neg (by simp)]
        rw [List.length_replicate]
        rw [drop_replicate_append]
        have hsp : ((List.replicate b ' ' ++ ("schedule:".data ++ (List.replicate c ' ' ++
            ('@' :: (d.data ++ tail))))).takeWhile isSpaceGo) = List.replicate b ' ' :=
          takeWhile_replicate_append isSpaceGo ' ' b _ (by decide)
            (fun ch hch => by
              cases c with
              | zero =>
                simp at hch
                rw [← hch]
                decide
              | succ k =>
                simp at hch
                rw [← hch]
                decide)
        rw [hsp, List.length_replicate]
        rw [drop_two_replicate_append]
        exact matchScheduleRest_eval _ c d tail hd htail
    unfold scheduleQuotesProcess
    rw [String.data]  -- (String.mk l).data = l
    rw [splitOnNL_no_newline _ hnl]
    simp only [List.map]
    unfold scheduleQuotesLine
    rw [hmatch]
    simp only [joinNL]
    congr 1
    simp
  · decide

/-- Witness for the amended C8 theorem: `"-- schedule: @every 5m"`
(two dashes, one space, one space after the colon, directive `every`,
remainder `" 5m"`) is rewritten to `"-- schedule: \"@every 5m\""`. -/
theorem scheduleQuotes_rewrites_dash_prefixed_directives_witness :
    scheduleQuotesProcess (String.mk (List.replicate 2 '-' ++ (List.replicate 1 ' ' ++
        ("schedule:".data ++ (List.replicate 1 ' ' ++
          ('@' :: ("every".data ++ " 5m".data))))))) =
      String.mk (List.replicate 2 '-' ++ (List.replicate 1 ' ' ++
        ("schedule:".data ++ (List.replicate 1 ' ' ++
          ('"' :: ('@' :: ("every".data ++ " 5m".data)) ++ ['"']))))) ∧
    applyProcesors "-- config\n-- schedule: @daily\nselect 1;" =
      "-- config\n-- schedule: \"@daily\"\nselect 1;" :=
  scheduleQuotes_rewrites_dash_prefixed_directives 2 1 1 "every" " 5m".data
    (by decide) (fun h => absurd h (by decide))
    (fun ch hch => by simp at hch; rw [← hch]; decide) (by decide)

/-! ## C9: unknown header keys -/

/-- C9 counterexample: the raw-config schema decode drops keys outside
the `rawConfig` struct tags — an unknown `foo: bar` does NOT appear in
`Config.Metadata`, which stays nil (it is populated only from an
explicit `metadata:` key). -/
theorem parseRawConfig_unknown_key_dropped :
    cfgMetadataOf (parseRawConfig (fun _ => none) (fun _ => none)
      [("foo", .yStr "bar")]) = some none ∧
    (none : Option (List (String × ParamVal))) ≠ some [("foo", .vStr "bar")] := by
  refine ⟨by decide, by decide⟩

lemma alookup_filterKey {α : Type} (k key : String) (m : List (String × α)) (hne : key ≠ k) :
    alookup key (m.filter fun kv => kv.1 ≠ k) = alookup key m := by
  induction m with
  | nil => rfl
  | cons hd tl ih =>
    obtain ⟨k1, v1⟩ := hd
    rw [List.filter_cons]
    by_cases h : k1 = k
    · rw [if_neg (by simp [h])]
      rw [ih]
      have hk1 : ¬k1 = key := by rw [h]; exact fun he => hne he.symm
      simp [alookup, hk1]
    · rw [if_pos (by simp [h])]
      simp only [ne_eq, decide_not] at ih
      simp [alookup, ih]

lemma yamlGetStr_filter (m : List (String × YamlVal)) (k key : String) (h : key ≠ k) :
    yamlGetStr (m.filter fun kv => kv.1 ≠ k) key = yamlGetStr m key := by
  unfold yamlGetStr
  rw [alookup_filterKey k key m h]

lemma yamlGetInt_filter (m : List (String × YamlVal)) (k key : String) (h : key ≠ k) :
    yamlGetInt (m.filter fun kv => kv.1 ≠ k) key = yamlGetInt m key := by
  unfold yamlGetInt
  rw [alookup_filterKey k key m h]

lemma yamlGetBool_filter (m : List (String × YamlVal)) (k key : String) (h : key ≠ k) :
    yamlGetBool (m.filter fun kv => kv.1 ≠ k) key = yamlGetBool m key := by
  unfold yamlGetBool
  rw [alookup_filterKey k key m h]

lemma yamlGetStrMap_filter (m : List (String × YamlVal)) (k key : String) (h : key ≠ k) :
    yamlGetStrMap (m.filter fun kv => kv.1 ≠ k) key = yamlGetStrMap m key := by
  unfold yamlGetStrMap
  rw [alookup_filterKey k key m h]

lemma yamlGetAnyMap_filter (m : List (String × YamlVal)) (k key : String) (h : key ≠ k) :
    yamlGetAnyMap (m.filter fun kv => kv.1 ≠ k) key = yamlGetAnyMap m key := by
  unfold yamlGetAnyMap
  rw [alookup_filterKey k key m h]

/-- C9 amended: keys outside the recognized `rawConfig` schema
(`schedule, retries, timeout, deadline, no_timeout, debug, run_once,
max_runs, exit_on_error, env, script_type, transaction, metadata` —
note `max_concurrency` and `backoff` are not in this parser's schema
either) are silently ignored by the YAML decode: removing all bindings
of an unrecognized key from the header mapping leaves the parsed
`Config` and the accumulated errors unchanged, and such keys are never
carried into `Config.Metadata`. -/
theorem parseRawConfig_ignores_unknown_keys (durParse rfcParse : String → Option Int)
    (m : List (String × YamlVal)) (k : String) (hk : k ∉ rawConfigKeys) :
    parseRawConfig durParse rfcParse m =
      parseRawConfig durParse rfcParse (m.filter fun kv => kv.1 ≠ k) := by
  have key_ne : ∀ key, key ∈ rawConfigKeys → key ≠ k := fun key hkey heq => hk (heq ▸ hkey)
  have hdec : rawConfigDecode (m.filter fun kv => kv.1 ≠ k) = rawConfigDecode m := by
    unfold rawConfigDecode
    simp only [yamlGetStr_filter m k "schedule" (key_ne _ (by decide)),
      yamlGetInt_filter m k "retries" (key_ne _ (by decide)),
      yamlGetStr_filter m k "timeout" (key_ne _ (by decide)),
      yamlGetStr_filter m k "deadline" (key_ne _ (by decide)),
      yamlGetBool_filter m k "no_timeout" (key_ne _ (by decide)),
      yamlGetBool_filter m k "debug" (key_ne _ (by decide)),
      yamlGetBool_filter m k "run_once" (key_ne _ (by decide)),
      yamlGetInt_filter m k "max_runs" (key_ne _ (by decide)),
      yamlGetBool_filter m k "exit_on_error" (key_ne _ (by decide)),
      yamlGetStrMap_filter m k "env" (key_ne _ (by decide)),
      yamlGetStr_filter m k "script_type" (key_ne _ (by decide)),
      yamlGetBool_filter m k "transaction" (key_ne _ (by decide)),
      yamlGetAnyMap_filter m k "metadata" (key_ne _ (by decide))]
  unfold parseRawConfig
  rw [hdec]

/-- Witness for the amended C9 theorem: dropping the unknown key
`"foo"` from a header carrying it next to a `schedule` leaves the
parse unchanged. -/
theorem parseRawConfig_ignores_unknown_keys_witness :
    parseRawConfig (fun _ => none) (fun _ => none)
        [("foo", .yStr "bar"), ("schedule", .yStr "*/5 * * * *")] =
      parseRawConfig (fun _ => none) (fun _ => none)
        ([("foo", .yStr "bar"), ("schedule", .yStr "*/5 * * * *")].filter
          fun kv => kv.1 ≠ "foo") :=
  parseRawConfig_ignores_unknown_keys (fun _ => none) (fun _ => none)
    [("foo", .yStr "bar"), ("schedule", .yStr "*/5 * * * *")] "foo" (by decide)

end GoJob
